import Mathlib

/-!
Verification model of the threeify layer compositor
(src/lib/engines/layerCompositor/LayerCompositor.ts and fragment.glsl).

The compositor is embedded shallowly as a state machine:

* GPU handles (textures, framebuffers, matrices) are modelled as natural
  number identifiers; decoded bitmaps are tagged handles recording whether
  the loader fetched them or the caller supplied them.
* The async method loadTexImage2D is split at its single suspension point
  (the awaited fetchImage call): the synchronous prefix is the function
  loadTexImage2D below, and the continuation that runs when the fetch
  resolves is loadContinuation.  A task record tracks each promise
  identity and settlement.
* render, renderLayersToFramebuffer, discardTexImage2D and updateOffscreen
  are direct translations; draw calls, clears and resource releases are
  emitted into an event list, and the contents of the two offscreen
  targets are tracked as ghost logs of the operations applied to them.
* Numeric viewport math is carried out over the rationals.
-/

namespace LayerCompositor

abbrev Url := String

/-- A decoded bitmap handle; the loader distinguishes images it fetched
itself (hadToFetch) from caller-supplied pre-decoded images. -/
inductive ImgHandle where
  | supplied (i : Nat)
  | fetched (tid : Nat)
deriving DecidableEq, Repr

/-- Model of class LayerImage: one GPU texture handle, the retained decoded
bitmap handle and the render generation in which it was last referenced. -/
structure LayerImage where
  url : Url
  texImage2D : Nat
  image : Option ImgHandle
  renderId : Int
deriving DecidableEq, Repr

/-- Settlement state of one entry of texImage2DPromiseCache: still awaiting
fetchImage, resolved with a texture, or resolved with null (cancelled). -/
inductive TaskStatus where
  | fetching
  | settledTex (tex : Nat)
  | settledNull
deriving DecidableEq, Repr

/-- One promise created by loadTexImage2D, with the url it loads. -/
structure TaskRec where
  url : Url
  status : TaskStatus
deriving DecidableEq, Repr

/-- Model of LayerMask as consumed by renderLayersToFramebuffer. -/
structure LayerMask where
  url : Url
  mode : Nat
  opacity : ℚ
  texImage2D : Nat
  viewToLayerUv : Nat
deriving DecidableEq, Repr

/-- Model of Layer as consumed by renderLayersToFramebuffer: the fields the
compositor reads.  Matrices are opaque handles. -/
structure Layer where
  url : Url
  mask : Option LayerMask
  isTriviallyBlended : Bool
  planeToImage : Nat
  viewToLayerUv : Nat
  texImage2D : Nat
  blendModeUniformValue : Nat
  opacity : ℚ
  blendModeBlendState : Nat
deriving DecidableEq, Repr

/-- The two image fit modes. -/
inductive ImageFitMode where
  | FitWidth
  | FitHeight
deriving DecidableEq, Repr

/-- The data determining the presentation draw issued by render(): the
inputs of makeMatrix4Scale (canvasImageSize), of
makeMatrix4OrthographicSimple (canvas height, canvasImageCenter, zoom,
aspect), of makeMatrix3FromViewToLayerUv (offscreenScaledSize) and the
sampled color attachment.  The matrix constructors are deterministic
functions of these inputs, so equal records mean equal presentation
uniforms. -/
structure PresentUniforms where
  canvasImageSize : ℚ × ℚ
  canvasHeight : ℚ
  canvasImageCenter : ℚ × ℚ
  zoomScale : ℚ
  canvasAspect : ℚ
  offscreenScaledSize : ℚ × ℚ
  layerMap : Nat
deriving DecidableEq, Repr

/-- Observable effects of the compositor: fetch starts, promise
settlements, discards, bitmap releases, offscreen clears, the per-layer
copy and blend draws (tagged with the layer index, target framebuffer,
sampled texture and placement transform), mipmap regeneration and the
presentation draw. -/
inductive Ev where
  | fetchStart (url : Url) (tid : Nat)
  | loadCompleted (url : Url) (tid : Nat) (desiredAt : Bool)
  | discarded (url : Url)
  | released (img : ImgHandle)
  | offscreenClear (fb : Nat)
  | copyDraw (idx : Nat) (dstFb : Nat) (srcTex : Nat) (localToView : Nat)
  | blendDraw (idx : Nat) (dstFb : Nat) (layerTex : Nat) (localToView : Nat)
      (blendState : Nat)
  | generateMipmaps (tex : Nat)
  | presentDraw (u : PresentUniforms)
deriving DecidableEq, Repr

/-! ### Association-list maps

The JS object maps layerImageCache and texImage2DPromiseCache are modelled
as association lists (layerImageCache must be enumerable because render()
iterates over its keys for auto-discard).  Setting a key replaces an
existing entry in place and otherwise appends, matching JS object key
order. -/

/-- Lookup in an association list (first entry with the given key). -/
def alookup (m : List (Url × α)) (k : Url) : Option α :=
  (m.find? (fun p => p.1 = k)).map (fun p => p.2)

/-- Set a key: replace the first existing entry in place, else append. -/
def aset : List (Url × α) → Url → α → List (Url × α)
  | [], k, v => [(k, v)]
  | p :: m, k, v => if p.1 = k then (k, v) :: m else p :: aset m k v

/-- Delete a key (removes every entry with that key; with the unique keys
maintained by aset this is the single JS delete). -/
def aerase : List (Url × α) → Url → List (Url × α)
  | [], _ => []
  | p :: m, k => if p.1 = k then aerase m k else p :: aerase m k

/-! ### The JS Set of desired images -/

/-- Model of desiredImages.add: JS Sets keep insertion order and adding an
existing element is a no-op. -/
def insertUrl (url : Url) (l : List Url) : List Url :=
  if url ∈ l then l else l ++ [url]

/-- Model of desiredImages.delete. -/
def removeUrl (url : Url) (l : List Url) : List Url :=
  l.filter (fun u => ¬ u = url)

/-! ### Compositor state -/

/-- The full state of one LayerCompositor instance, together with the model
bookkeeping: the registry of promises ever created by loadTexImage2D
(tasks), fresh-identifier counters, the canvas framebuffer parameters held
by the rendering context (canvasSize and the device pixel ratio dpr), and
ghost logs of the operations applied to the two offscreen color
attachments (their contents). -/
structure CState where
  desiredImages : List Url
  layerImageCache : List (Url × LayerImage)
  texImage2DPromiseCache : Url → Option Nat
  tasks : Nat → Option TaskRec
  nextTaskId : Nat
  nextTexId : Nat
  autoDiscard : Bool
  renderId : Int
  imageSize : ℚ × ℚ
  imageFitMode : ImageFitMode
  zoomScale : ℚ
  panPosition : ℚ × ℚ
  dpr : ℚ
  canvasSize : ℚ × ℚ
  layers : List Layer
  layerVersion : Int
  offlineLayerVersion : Int
  offscreenSize : ℚ × ℚ
  offscreenWriteFramebuffer : Option Nat
  offscreenWriteColorAttachment : Option Nat
  offscreenReadFramebuffer : Option Nat
  offscreenReadColorAttachment : Option Nat
  nextFbId : Nat
  offscreenWriteLog : List Ev
  offscreenReadLog : List Ev

/-- The state of a freshly constructed compositor (canvas framebuffer
parameters fixed at the html default canvas size and unit pixel ratio). -/
def initialState : CState where
  desiredImages := []
  layerImageCache := []
  texImage2DPromiseCache := fun _ => none
  tasks := fun _ => none
  nextTaskId := 0
  nextTexId := 0
  autoDiscard := false
  renderId := 0
  imageSize := (0, 0)
  imageFitMode := ImageFitMode.FitHeight
  zoomScale := 1
  panPosition := (1 / 2, 1 / 2)
  dpr := 1
  canvasSize := (300, 150)
  layers := []
  layerVersion := 0
  offlineLayerVersion := -1
  offscreenSize := (0, 0)
  offscreenWriteFramebuffer := none
  offscreenWriteColorAttachment := none
  offscreenReadFramebuffer := none
  offscreenReadColorAttachment := none
  nextFbId := 0
  offscreenWriteLog := []
  offscreenReadLog := []

/-! ### Viewport transform math (render, lines 258 to 308) -/

/-- The fit-mode scale from logical image space to canvas space. -/
def imageToCanvasScale (s : CState) : ℚ :=
  match s.imageFitMode with
  | ImageFitMode.FitWidth => s.canvasSize.1 / s.imageSize.1
  | ImageFitMode.FitHeight => s.canvasSize.2 / s.imageSize.2

/-- JS Math.sign restricted to the rationals. -/
def jsSign (q : ℚ) : ℚ :=
  if 0 < q then 1 else if q < 0 then -1 else 0

/-- The pan offset in logical image space after clamping (the body of the
zoom branch of render up to and including the two clamp assignments):
pan position converted from canvas space to image space, centered against
the image-space canvas extent, then each axis clamped by
sign(v) * min(abs v, imageSize * 0.5). -/
def imagePanOffsetClamped (s : CState) : ℚ × ℚ :=
  let scale := imageToCanvasScale s
  let imagePanPosition :=
    (s.panPosition.1 * (1 / scale) * s.dpr, s.panPosition.2 * (1 / scale) * s.dpr)
  let imageCanvasSize :=
    (s.canvasSize.1 * (1 / scale), s.canvasSize.2 * (1 / scale))
  let off :=
    (imagePanPosition.1 - imageCanvasSize.1 * (1 / 2),
     imagePanPosition.2 - imageCanvasSize.2 * (1 / 2))
  (jsSign off.1 * min |off.1| (s.imageSize.1 * (1 / 2)),
   jsSign off.2 * min |off.2| (s.imageSize.2 * (1 / 2)))

/-- The center of the on-canvas image rectangle: half the fitted size,
shifted, only when zoomScale exceeds 1, by the clamped pan offset
converted back to canvas space and scaled by the zoom anchor correction
factor (1 - 1 / zoomScale). -/
def canvasImageCenterOf (s : CState) : ℚ × ℚ :=
  let scale := imageToCanvasScale s
  let canvasImageSize := (s.imageSize.1 * scale, s.imageSize.2 * scale)
  let base := (canvasImageSize.1 * (1 / 2), canvasImageSize.2 * (1 / 2))
  if 1 < s.zoomScale then
    let imagePanOffset := imagePanOffsetClamped s
    let canvasPanOffset := (imagePanOffset.1 * scale, imagePanOffset.2 * scale)
    let centered :=
      (canvasPanOffset.1 * (1 - 1 / s.zoomScale),
       canvasPanOffset.2 * (1 - 1 / s.zoomScale))
    (base.1 + centered.1, base.2 + centered.2)
  else base

/-- All data determining the presentation draw of render(), given the
offscreen write color attachment being sampled. -/
def computePresent (s : CState) (att : Nat) : PresentUniforms :=
  let scale := imageToCanvasScale s
  { canvasImageSize := (s.imageSize.1 * scale, s.imageSize.2 * scale)
    canvasHeight := s.canvasSize.2
    canvasImageCenter := canvasImageCenterOf s
    zoomScale := s.zoomScale
    canvasAspect := s.canvasSize.1 / s.canvasSize.2
    offscreenScaledSize := (s.offscreenSize.1 * scale, s.offscreenSize.2 * scale)
    layerMap := att }

/-! ### Texture cache operations -/

/-- Synchronous part of async loadTexImage2D(url, image), up to the await
on fetchImage: add url to the Desired Set; if a promise for url exists
return it unchanged; otherwise create the new promise.  With a
caller-supplied image there is no suspension point, so the whole async
body runs synchronously: the Desired-Set re-check (true, the url was just
added in this same synchronous block), the insertion into layerImageCache
and settlement with the texture.  Without one, the task suspends awaiting
fetchImage and a fetch is started.  Returns the promise identifier. -/
def loadTexImage2D (s : CState) (url : Url) (image : Option Nat) :
    CState × Nat × List Ev :=
  match s.texImage2DPromiseCache url with
  | some t => ({ s with desiredImages := insertUrl url s.desiredImages }, t, [])
  | none =>
    match image with
    | none =>
      ({ s with
          desiredImages := insertUrl url s.desiredImages
          nextTaskId := s.nextTaskId + 1
          tasks := fun n =>
            if n = s.nextTaskId then
              some { url := url, status := TaskStatus.fetching }
            else s.tasks n
          texImage2DPromiseCache := fun u =>
            if u = url then some s.nextTaskId
            else s.texImage2DPromiseCache u },
        s.nextTaskId, [Ev.fetchStart url s.nextTaskId])
    | some i =>
      if url ∈ insertUrl url s.desiredImages then
        ({ s with
            desiredImages := insertUrl url s.desiredImages
            nextTaskId := s.nextTaskId + 1
            nextTexId := s.nextTexId + 1
            layerImageCache :=
              aset s.layerImageCache url
                { url := url, texImage2D := s.nextTexId
                  image := some (ImgHandle.supplied i), renderId := -1 }
            tasks := fun n =>
              if n = s.nextTaskId then
                some { url := url, status := TaskStatus.settledTex s.nextTexId }
              else s.tasks n
            texImage2DPromiseCache := fun u =>
              if u = url then some s.nextTaskId
              else s.texImage2DPromiseCache u },
          s.nextTaskId, [Ev.loadCompleted url s.nextTaskId true])
      else
        -- Unreachable: url was added to desiredImages in this same
        -- synchronous block.  Mirrors the membership re-check of the code;
        -- the promise settles null, and the assignment after the body
        -- still installs the settled promise in the cache.
        ({ s with
            desiredImages := insertUrl url s.desiredImages
            nextTaskId := s.nextTaskId + 1
            tasks := fun n =>
              if n = s.nextTaskId then
                some { url := url, status := TaskStatus.settledNull }
              else s.tasks n
            texImage2DPromiseCache := fun u =>
              if u = url then some s.nextTaskId
              else s.texImage2DPromiseCache u },
          s.nextTaskId, [Ev.loadCompleted url s.nextTaskId false])

/-- Continuation of loadTexImage2D after the awaited fetchImage resolves
(hadToFetch is true on this path).  Re-checks Desired-Set membership: if
the url is no longer desired, delete the promise-cache entry, release the
fetched image, and settle null; otherwise upload into a new LayerImage,
insert it into layerImageCache and settle with the texture.  Running a
promise that is not awaiting a fetch is a no-op. -/
def loadContinuation (s : CState) (tid : Nat) : CState × List Ev :=
  match s.tasks tid with
  | some { url := url, status := TaskStatus.fetching } =>
    if url ∈ s.desiredImages then
      ({ s with
          nextTexId := s.nextTexId + 1
          layerImageCache :=
            aset s.layerImageCache url
              { url := url, texImage2D := s.nextTexId
                image := some (ImgHandle.fetched tid), renderId := -1 }
          tasks := fun n =>
            if n = tid then
              some { url := url, status := TaskStatus.settledTex s.nextTexId }
            else s.tasks n },
        [Ev.loadCompleted url tid true])
    else
      ({ s with
          texImage2DPromiseCache := fun u =>
            if u = url then none else s.texImage2DPromiseCache u
          tasks := fun n =>
            if n = tid then
              some { url := url, status := TaskStatus.settledNull }
            else s.tasks n },
        [Ev.released (ImgHandle.fetched tid), Ev.loadCompleted url tid false])
  | _ => (s, [])

/-- discardTexImage2D(url): no-op returning false when the url is not
desired; otherwise remove the url from the Desired Set, dispose any cached
LayerImage (releasing its retained bitmap handle), drop the promise-cache
entry and return true. -/
def discardTexImage2D (s : CState) (url : Url) : CState × Bool × List Ev :=
  if url ∈ s.desiredImages then
    ({ s with
        desiredImages := removeUrl url s.desiredImages
        layerImageCache := aerase s.layerImageCache url
        texImage2DPromiseCache := fun u =>
          if u = url then none else s.texImage2DPromiseCache u },
      true,
      Ev.discarded url ::
        (match alookup s.layerImageCache url with
         | some li =>
           match li.image with
           | some img => [Ev.released img]
           | none => []
         | none => []))
  else (s, false, [])

/-! ### Offscreen buffers and the layer pipeline -/

/-- Fuel-carrying ceiling base-2 logarithm: clog2Aux fuel n is the least k
with n ≤ 2 ^ k, provided fuel ≥ n. -/
def clog2Aux : Nat → Nat → Nat
  | 0, _ => 0
  | f + 1, n => if n ≤ 1 then 0 else clog2Aux f ((n + 1) / 2) + 1

/-- Ceiling base-2 logarithm: the least k with n ≤ 2 ^ k. -/
def clog2 (n : Nat) : Nat :=
  clog2Aux n n

/-- Modelled from the spec: ceilPow2 (src/lib/math/Functions.ts) is not
among the provided sources; section 4.2 specifies roundedSize as the
per-axis round-up to the next power of two. -/
def ceilPow2 (x : ℚ) : ℚ :=
  (2 : ℚ) ^ clog2 (Nat.ceil x)

/-- updateOffscreen(): round the image size up to powers of two; if either
framebuffer is missing or the rounded size changed, dispose and recreate
both framebuffer and attachment pairs (fresh handles, blank contents). -/
def updateOffscreen (s : CState) : CState :=
  if s.offscreenWriteFramebuffer = none ∨ s.offscreenReadFramebuffer = none ∨
      ¬ s.offscreenSize = (ceilPow2 s.imageSize.1, ceilPow2 s.imageSize.2) then
    { s with
        offscreenSize := (ceilPow2 s.imageSize.1, ceilPow2 s.imageSize.2)
        offscreenWriteFramebuffer := some s.nextFbId
        offscreenWriteColorAttachment := some (s.nextFbId + 1)
        offscreenReadFramebuffer := some (s.nextFbId + 2)
        offscreenReadColorAttachment := some (s.nextFbId + 3)
        nextFbId := s.nextFbId + 4
        offscreenWriteLog := []
        offscreenReadLog := [] }
  else s

/-- Record the current render id on the cached LayerImage for one url
(usage tracking for auto-eviction). -/
def stampUrl (s : CState) (url : Url) : CState :=
  match alookup s.layerImageCache url with
  | some li =>
    { s with
        layerImageCache :=
          aset s.layerImageCache url { li with renderId := s.renderId } }
  | none => s

/-- Per-layer usage stamping: the layer image and, when a mask is present,
the mask image. -/
def stampLayer (s : CState) (l : Layer) : CState :=
  match l.mask with
  | some m => stampUrl (stampUrl s l.url) m.url
  | none => stampUrl s l.url

/-- The usage stamping performed by the forEach of
renderLayersToFramebuffer over the current layer list. -/
def stampAll (s : CState) : CState :=
  s.layers.foldl stampLayer s

/-- The draw calls issued for one layer at stack index idx: a copy draw
into the read framebuffer sampling the current write color attachment,
restricted to the layer placement transform (localToView is the layer
planeToImage), exactly when the layer is not trivially blended; then the
blend draw of the layer quad into the write framebuffer. -/
def layerDrawEvents (wfb rfb watt : Nat) (idx : Nat) (l : Layer) : List Ev :=
  (if l.isTriviallyBlended then []
   else [Ev.copyDraw idx rfb watt l.planeToImage]) ++
  [Ev.blendDraw idx wfb l.texImage2D l.planeToImage l.blendModeBlendState]

/-- The draw calls of the whole stack, indexed from i. -/
def drawsFrom (wfb rfb watt : Nat) : Nat → List Layer → List Ev
  | _, [] => []
  | i, l :: ls =>
    layerDrawEvents wfb rfb watt i l ++ drawsFrom wfb rfb watt (i + 1) ls

/-- Whether an event is a blend draw (a write into the write target). -/
def isBlendDraw : Ev → Bool
  | Ev.blendDraw _ _ _ _ _ => true
  | _ => false

/-- Whether an event is a copy draw (a write into the read target). -/
def isCopyDraw : Ev → Bool
  | Ev.copyDraw _ _ _ _ => true
  | _ => false

/-- Body of renderLayersToFramebuffer() after updateOffscreen: return
immediately when the layer version has already been rendered, otherwise
record the version, clear both targets, stamp usage and issue the
copy-then-blend draws for every layer in stack order, and regenerate
mipmaps on the write color attachment.  The usage stamping and the draw
calls are independent (draws read only Layer fields, stamps touch only
layerImageCache), so the per-layer interleaving of the source is modelled
as stamping followed by the draw list.  The ghost content logs of the two
targets record the clear and the draws applied to each. -/
def renderLayersAfterUpdate (s : CState) : CState × List Ev :=
  if s.offlineLayerVersion ≥ s.layerVersion then (s, [])
  else
    match s.offscreenWriteFramebuffer, s.offscreenReadFramebuffer,
        s.offscreenWriteColorAttachment, s.offscreenReadColorAttachment with
    | some wfb, some rfb, some watt, some _ =>
      ({ stampAll { s with offlineLayerVersion := s.layerVersion } with
          offscreenWriteLog :=
            s.offscreenWriteLog ++ [Ev.offscreenClear wfb] ++
              (drawsFrom wfb rfb watt 0 s.layers).filter isBlendDraw ++
              [Ev.generateMipmaps watt]
          offscreenReadLog :=
            s.offscreenReadLog ++ [Ev.offscreenClear rfb] ++
              (drawsFrom wfb rfb watt 0 s.layers).filter isCopyDraw },
        [Ev.offscreenClear wfb, Ev.offscreenClear rfb] ++
          drawsFrom wfb rfb watt 0 s.layers ++ [Ev.generateMipmaps watt])
    | _, _, _, _ => ({ s with offlineLayerVersion := s.layerVersion }, [])

/-- renderLayersToFramebuffer() is updateOffscreen followed by the body
above. -/
def renderLayersToFramebuffer (s : CState) : CState × List Ev :=
  renderLayersAfterUpdate (updateOffscreen s)

/-- One iteration of the auto-discard loop of render(): re-read the cache
entry for the key (as the JS loop body does) and discard it when its
recorded render id is older than the current render id. -/
def autoDiscardStep (acc : CState × List Ev) (p : Url × LayerImage) :
    CState × List Ev :=
  match alookup acc.1.layerImageCache p.1 with
  | none => acc
  | some li =>
    if li.renderId < acc.1.renderId then
      ((discardTexImage2D acc.1 p.1).1,
        acc.2 ++ (discardTexImage2D acc.1 p.1).2.2)
    else acc

/-- The auto-discard loop of render(), iterating over the keys of
layerImageCache. -/
def autoDiscardPass (s : CState) : CState × List Ev :=
  s.layerImageCache.foldl autoDiscardStep (s, [])

/-- Tail of render() after recomposition: when the write color attachment
exists, issue the presentation draw of the composited quad onto the
canvas, then run the auto-discard sweep when enabled. -/
def renderAfterCompose (r : CState × List Ev) : CState × List Ev :=
  match r.1.offscreenWriteColorAttachment with
  | none => r
  | some att =>
    if r.1.autoDiscard then
      ((autoDiscardPass r.1).1,
        r.2 ++ [Ev.presentDraw (computePresent r.1 att)] ++
          (autoDiscardPass r.1).2)
    else
      (r.1, r.2 ++ [Ev.presentDraw (computePresent r.1 att)])

/-- render() is the render-id bump, the offscreen recomposition, then the
presentation and auto-discard stage above. -/
def render (s : CState) : CState × List Ev :=
  renderAfterCompose (renderLayersToFramebuffer { s with renderId := s.renderId + 1 })

/-! ### Traces

The compositor runs on one logical thread; the only suspension points are
the awaited fetches, whose continuations are scheduled as separate ops. -/

/-- The atomic operations of one compositor instance: the synchronous part
of a load request, a discard, the event loop resuming a pending fetch, a
render call, a wholesale layer-stack replacement (the layers setter, which
bumps the version counter), and toggling autoDiscard. -/
inductive Op where
  | load (url : Url) (image : Option Nat)
  | discard (url : Url)
  | complete (tid : Nat)
  | render
  | setLayers (ls : List Layer)
  | setAutoDiscard (b : Bool)

/-- One atomic step. -/
def stepOp (s : CState) : Op → CState × List Ev
  | Op.load url img =>
    let r := loadTexImage2D s url img
    (r.1, r.2.2)
  | Op.discard url =>
    let r := discardTexImage2D s url
    (r.1, r.2.2)
  | Op.complete tid => loadContinuation s tid
  | Op.render => render s
  | Op.setLayers ls =>
    ({ s with layers := ls, layerVersion := s.layerVersion + 1 }, [])
  | Op.setAutoDiscard b => ({ s with autoDiscard := b }, [])

/-- Run a list of operations from a state, discarding events. -/
def runS (s : CState) : List Op → CState
  | [] => s
  | op :: ops => runS (stepOp s op).1 ops

/-- Run a list of operations from a state, collecting all events. -/
def runEvFrom (s : CState) : List Op → CState × List Ev
  | [] => (s, [])
  | op :: ops =>
    let r := stepOp s op
    let rr := runEvFrom r.1 ops
    (rr.1, r.2 ++ rr.2)

/-- Run a trace from the initial state. -/
def run (ops : List Op) : CState × List Ev :=
  runEvFrom initialState ops

/-! ### The blend fragment function (fragment.glsl)

Colors are rational four-vectors; the samplers are functions from UV
coordinates to colors (the constant mipmapBias argument of each texture2D
call is folded into the sampler function).  getMaskValue (mask.frag) and
compositeColors (blend.frag) are not among the provided sources and are
kept as opaque function parameters. -/

/-- An RGBA color over the rationals. -/
structure Vec4 where
  r : ℚ
  g : ℚ
  b : ℚ
  a : ℚ
deriving DecidableEq, Repr

/-- The zero color vec4(0.). -/
def vzero : Vec4 := { r := 0, g := 0, b := 0, a := 0 }

/-- Componentwise scaling of a color by a scalar. -/
def vscale (k : ℚ) (v : Vec4) : Vec4 :=
  { r := k * v.r, g := k * v.g, b := k * v.b, a := k * v.a }

/-- Multiply the rgb components by the alpha component. -/
def premultiply (c : Vec4) : Vec4 :=
  { r := c.r * c.a, g := c.g * c.a, b := c.b * c.a, a := c.a }

/-- The bounds check of fragment.glsl: the bvec4 comparison
greaterThanEqual((uv, -uv), (lowerBound, -upperBound)) combined with
all(). -/
def maskInBounds (maskUv : ℚ × ℚ) : Bool :=
  decide (0 ≤ maskUv.1) && decide (0 ≤ maskUv.2) &&
    decide (-maskUv.1 ≥ -1) && decide (-maskUv.2 ≥ -1)

/-- main() of fragment.glsl: sample the layer, apply opacity; when masking
is active, sample the mask only when the mask UV lies in the unit square
(the combined greaterThanEqual bounds check), else use vec4(0.), apply
maskOpacity and getMaskValue; when the blend mode is non-trivial,
un-premultiply and composite against the destination sample. -/
def fragmentMain (imageMap layerMap maskMap : ℚ × ℚ → Vec4)
    (convertToPremultipliedAlpha : Int) (maskMode blendMode : Int)
    (maskOpacity opacity : ℚ)
    (getMaskValue : Vec4 → ℚ) (compositeColors : Vec4 → Vec4 → Vec4)
    (imageUv layerUv maskUv : ℚ × ℚ) : Vec4 :=
  let layerColor := layerMap layerUv
  let layerColor :=
    if convertToPremultipliedAlpha = 1 then premultiply layerColor
    else layerColor
  let outputColor := vscale opacity layerColor
  let outputColor :=
    if maskMode ≠ 0 then
      let maskColor := if maskInBounds maskUv then maskMap maskUv else vzero
      let maskColor :=
        if convertToPremultipliedAlpha = 1 then premultiply maskColor
        else maskColor
      let maskColor := vscale maskOpacity maskColor
      vscale (getMaskValue maskColor) outputColor
    else outputColor
  if blendMode ≠ 0 then
    let imageColor := imageMap imageUv
    let outputColor :=
      if outputColor.a > (1 / 2 : ℚ) / 255 then
        { r := outputColor.r / outputColor.a
          g := outputColor.g / outputColor.a
          b := outputColor.b / outputColor.a
          a := outputColor.a }
      else { r := 0, g := 0, b := 0, a := outputColor.a }
    compositeColors outputColor imageColor
  else outputColor

/-- Whether an event is a copy or blend draw belonging to stack index
i. -/
def drawsOfLayer (i : Nat) : Ev → Bool
  | Ev.copyDraw j _ _ _ => j = i
  | Ev.blendDraw j _ _ _ _ => j = i
  | _ => false

/-- A trivially blended concrete layer. -/
def layerA : Layer :=
  { url := "a", mask := none, isTriviallyBlended := true, planeToImage := 10
    viewToLayerUv := 11, texImage2D := 12, blendModeUniformValue := 0
    opacity := 1, blendModeBlendState := 0 }

/-- A non-trivially blended concrete layer. -/
def layerB : Layer :=
  { url := "b", mask := none, isTriviallyBlended := false, planeToImage := 20
    viewToLayerUv := 21, texImage2D := 22, blendModeUniformValue := 3
    opacity := 1, blendModeBlendState := 1 }

/-- The concrete two-layer stack state exercising the copy-then-blend
protocol. -/
def c4state : CState :=
  { initialState with layers := [layerA, layerB], layerVersion := 1 }

/-- One step of the ghost resident-membership automaton for a fixed url:
a successful load completion for the url makes it resident, a discard of
the url makes it non-resident, every other event leaves it unchanged. -/
def residentFoldStep (url : Url) (b : Bool) : Ev → Bool
  | Ev.loadCompleted u _ true => if u = url then true else b
  | Ev.discarded u => if u = url then false else b
  | _ => b

/-- Whether the event history leaves the url resident: there was a load
completion with the url desired, not followed by a discard of the url. -/
def residentAfter (url : Url) (evs : List Ev) : Bool :=
  evs.foldl (residentFoldStep url) false

/-- Whether one layer references the url, as its image or its mask
image. -/
def layerRefs (l : Layer) (url : Url) : Bool :=
  decide (l.url = url) ||
    (match l.mask with
     | some m => decide (m.url = url)
     | none => false)

/-- Whether the layer stack references the url, as a layer image or a mask
image. -/
def referencedBy (ls : List Layer) (url : Url) : Bool :=
  ls.any (fun l => layerRefs l url)

/-- The url is desired and one of the listed resident entries for it is
older than the current render id: the auto-discard sweep over those
entries will evict it. -/
def evictedIn (l : List (Url × LayerImage)) (s : CState) (url : Url) : Prop :=
  url ∈ s.desiredImages ∧ ∃ p ∈ l, p.1 = url ∧ p.2.renderId < s.renderId

instance (l : List (Url × LayerImage)) (s : CState) (url : Url) :
    Decidable (evictedIn l s url) := by
  unfold evictedIn
  infer_instance

/-- The auto-discard condition of render() for a resident url. -/
def evicted (s : CState) (url : Url) : Prop :=
  evictedIn s.layerImageCache s url

instance (s : CState) (url : Url) : Decidable (evicted s url) := by
  unfold evicted
  infer_instance

/-- The cache-map invariant of the compositor: unique resident keys; every
entry of the Pending-Load Map points to an existing task for that url that
has not settled as cancelled; and task identifiers at or above the
allocation counter are unused. -/
def Inv (s : CState) : Prop :=
  ((s.layerImageCache.map (fun p => p.1)).Nodup) ∧
  (∀ url t, s.texImage2DPromiseCache url = some t →
    ∃ tk, s.tasks t = some tk ∧ tk.url = url ∧
      tk.status ≠ TaskStatus.settledNull) ∧
  (∀ t, s.nextTaskId ≤ t → s.tasks t = none)

/-- Whether an event is offscreen recomposition work: a clear of an
offscreen target, a copy or blend draw, or a mipmap regeneration. -/
def isOffscreenWork : Ev → Bool
  | Ev.offscreenClear _ => true
  | Ev.copyDraw _ _ _ _ => true
  | Ev.blendDraw _ _ _ _ _ => true
  | Ev.generateMipmaps _ => true
  | _ => false

/-- All state components except the three cache maps mutated by
discardTexImage2D (the Desired Set, the Resident Cache and the
Pending-Load Map), bundled for unchangedness lemmas. -/
def nonCacheFields (s : CState) :=
  (s.tasks, s.nextTaskId, s.nextTexId, s.autoDiscard, s.renderId,
   s.imageSize, s.imageFitMode, s.zoomScale, s.panPosition, s.dpr,
   s.canvasSize, s.layers, s.layerVersion, s.offlineLayerVersion,
   s.offscreenSize, s.offscreenWriteFramebuffer,
   s.offscreenWriteColorAttachment, s.offscreenReadFramebuffer,
   s.offscreenReadColorAttachment, s.nextFbId, s.offscreenWriteLog,
   s.offscreenReadLog)

/-- All state components except the Resident Cache (the only field the
usage stamping mutates). -/
def nonResidentFields (s : CState) :=
  (s.desiredImages, s.texImage2DPromiseCache, nonCacheFields s)

/-- Operations that neither touch the url nor settle the task t: loads and
discards of other urls, completions of other tasks, renders and layer or
configuration changes. -/
def OpAvoids (url : Url) (t : Nat) : Op → Prop
  | Op.load u _ => ¬ u = url
  | Op.discard u => ¬ u = url
  | Op.complete tid => ¬ tid = t
  | Op.render => True
  | Op.setLayers _ => True
  | Op.setAutoDiscard _ => True

/-- Context of an in-flight fetch for url by task t: the url is desired
and pending on t, t is its only task, still fetching, the url is not
resident, and t predates the allocator. -/
def UrlLive (s : CState) (url : Url) (t : Nat) : Prop :=
  url ∈ s.desiredImages ∧
  s.texImage2DPromiseCache url = some t ∧
  s.tasks t = some { url := url, status := TaskStatus.fetching } ∧
  alookup s.layerImageCache url = none ∧
  (∀ tid tk, s.tasks tid = some tk → tk.url = url → tid = t) ∧
  t < s.nextTaskId

/-- Context after the url was discarded while task t was still fetching:
the url is gone from all three maps, t is its only task, still fetching,
and t predates the allocator. -/
def UrlDropped (s : CState) (url : Url) (t : Nat) : Prop :=
  url ∉ s.desiredImages ∧
  s.texImage2DPromiseCache url = none ∧
  s.tasks t = some { url := url, status := TaskStatus.fetching } ∧
  alookup s.layerImageCache url = none ∧
  (∀ tid tk, s.tasks tid = some tk → tk.url = url → tid = t) ∧
  t < s.nextTaskId

/-! ## Theorems -/

theorem alookup_nil (k : Url) : alookup ([] : List (Url × α)) k = none := rfl

theorem alookup_cons (p : Url × α) (m : List (Url × α)) (k : Url) :
    alookup (p :: m) k = if p.1 = k then some p.2 else alookup m k := by
  by_cases h : p.1 = k <;> simp [alookup, List.find?, h]

theorem alookup_aset (m : List (Url × α)) (k : Url) (v : α) (u : Url) :
    alookup (aset m k v) u = if u = k then some v else alookup m u := by
  induction m with
  | nil =>
    by_cases h : u = k
    · simp [aset, alookup_cons, alookup_nil, h]
    · have h1 : ¬ (k = u) := fun hh => h hh.symm
      simp [aset, alookup_cons, alookup_nil, h, h1]
  | cons p m ih =>
    by_cases hp : p.1 = k
    · rw [aset, if_pos hp, alookup_cons, alookup_cons]
      by_cases hu : u = k
      · simp [hu]
      · have h1 : ¬ (k = u) := fun hh => hu hh.symm
        have h2 : ¬ (p.1 = u) := by rw [hp]; exact h1
        simp [hu, h1, h2]
    · rw [aset, if_neg hp, alookup_cons, alookup_cons, ih]
      by_cases hu : p.1 = u
      · have h1 : ¬ (u = k) := by rw [← hu]; exact fun hh => hp hh
        simp [hu, h1]
      · simp [hu]

theorem alookup_aerase (m : List (Url × α)) (k : Url) (u : Url) :
    alookup (aerase m k) u = if u = k then none else alookup m u := by
  induction m with
  | nil => by_cases h : u = k <;> simp [aerase, alookup_nil, h]
  | cons p m ih =>
    rw [aerase]
    by_cases hp : p.1 = k
    · rw [if_pos hp, ih, alookup_cons]
      by_cases hu : u = k
      · simp [hu]
      · have h2 : ¬ (p.1 = u) := by rw [hp]; exact fun hh => hu hh.symm
        simp [hu, h2]
    · rw [if_neg hp, alookup_cons, alookup_cons, ih]
      by_cases hu : p.1 = u
      · have h1 : ¬ (u = k) := fun hh => hp (hu.trans hh)
        simp [hu, h1]
      · simp [hu]

/-- Membership of an entry whose key appears nowhere else gives lookup. -/
theorem alookup_eq_of_mem (m : List (Url × α)) (u : Url) (v : α)
    (hnd : (m.map (fun p => p.1)).Nodup) (hm : (u, v) ∈ m) :
    alookup m u = some v := by
  induction m with
  | nil => cases hm
  | cons p m ih =>
    rw [List.map_cons, List.nodup_cons] at hnd
    rcases List.mem_cons.mp hm with h | h
    · rw [← h, alookup_cons, if_pos rfl]
    · have hp : ¬ (p.1 = u) := by
        intro he
        exact hnd.1 (he ▸ (List.mem_map.mpr ⟨(u, v), h, rfl⟩))
      rw [alookup_cons, if_neg hp]
      exact ih hnd.2 h

theorem keys_aset_of_present (m : List (Url × α)) (k : Url) (v : α)
    (h : (alookup m k).isSome) :
    (aset m k v).map (fun p => p.1) = m.map (fun p => p.1) := by
  induction m with
  | nil => simp [alookup] at h
  | cons p m ih =>
    by_cases hp : p.1 = k
    · rw [aset, if_pos hp, List.map_cons, List.map_cons, hp]
    · rw [alookup_cons, if_neg hp] at h
      rw [aset, if_neg hp, List.map_cons, List.map_cons, ih h]

theorem keys_aset_of_absent (m : List (Url × α)) (k : Url) (v : α)
    (h : alookup m k = none) :
    (aset m k v).map (fun p => p.1) = m.map (fun p => p.1) ++ [k] := by
  induction m with
  | nil => simp [aset]
  | cons p m ih =>
    rw [alookup_cons] at h
    by_cases hp : p.1 = k
    · rw [if_pos hp] at h; cases h
    · rw [if_neg hp] at h
      rw [aset, if_neg hp, List.map_cons, List.map_cons, ih h,
        List.cons_append]

theorem alookup_isSome_of_mem_keys (m : List (Url × α)) (a : Url)
    (h : a ∈ m.map (fun p => p.1)) : (alookup m a).isSome := by
  induction m with
  | nil => cases h
  | cons p m ih =>
    rw [List.map_cons, List.mem_cons] at h
    rw [alookup_cons]
    by_cases hp : p.1 = a
    · rw [if_pos hp]; rfl
    · rw [if_neg hp]
      rcases h with h | h
      · exact absurd h.symm hp
      · exact ih h

theorem nodup_keys_aset (m : List (Url × α)) (k : Url) (v : α)
    (hnd : (m.map (fun p => p.1)).Nodup) :
    ((aset m k v).map (fun p => p.1)).Nodup := by
  rcases h : alookup m k with _ | w
  · rw [keys_aset_of_absent m k v h]
    refine List.Nodup.append hnd (List.nodup_singleton k) ?_
    intro a ha hb
    rw [List.mem_singleton] at hb
    subst hb
    have := alookup_isSome_of_mem_keys m a ha
    rw [h] at this
    cases this
  · rw [keys_aset_of_present m k v (by rw [h]; rfl)]
    exact hnd

theorem aerase_sublist (m : List (Url × α)) (k : Url) :
    (aerase m k).Sublist m := by
  induction m with
  | nil => exact List.Sublist.refl []
  | cons p m ih =>
    rw [aerase]
    by_cases hp : p.1 = k
    · rw [if_pos hp]
      exact ih.cons p
    · rw [if_neg hp]
      exact ih.cons₂ p

theorem nodup_keys_aerase (m : List (Url × α)) (k : Url)
    (hnd : (m.map (fun p => p.1)).Nodup) :
    ((aerase m k).map (fun p => p.1)).Nodup :=
  hnd.sublist ((aerase_sublist m k).map (fun p => p.1))

theorem mem_insertUrl_self (url : Url) (l : List Url) :
    url ∈ insertUrl url l := by
  unfold insertUrl
  by_cases h : url ∈ l
  · rw [if_pos h]; exact h
  · rw [if_neg h]
    exact List.mem_append.mpr (Or.inr (List.mem_singleton.mpr rfl))

theorem mem_insertUrl (u url : Url) (l : List Url) :
    u ∈ insertUrl url l ↔ u = url ∨ u ∈ l := by
  unfold insertUrl
  by_cases h : url ∈ l
  · rw [if_pos h]
    constructor
    · exact fun hm => Or.inr hm
    · rintro (rfl | hm)
      · exact h
      · exact hm
  · rw [if_neg h, List.mem_append, List.mem_singleton, or_comm]

theorem insertUrl_of_mem (url : Url) (l : List Url) (h : url ∈ l) :
    insertUrl url l = l := by
  unfold insertUrl
  rw [if_pos h]

theorem mem_removeUrl (u url : Url) (l : List Url) :
    u ∈ removeUrl url l ↔ u ∈ l ∧ ¬ u = url := by
  unfold removeUrl
  simp [List.mem_filter]

/-- The per-axis clamp sign(v) * min(abs v, h) has magnitude at most h. -/
theorem abs_jsSign_mul_min_le (v h : ℚ) (hh : 0 ≤ h) :
    |jsSign v * min |v| h| ≤ h := by
  unfold jsSign
  by_cases h1 : 0 < v
  · rw [if_pos h1, one_mul, abs_of_nonneg (le_min (abs_nonneg v) hh)]
    exact min_le_right _ _
  · rw [if_neg h1]
    by_cases h2 : v < 0
    · rw [if_pos h2, neg_one_mul, abs_neg,
        abs_of_nonneg (le_min (abs_nonneg v) hh)]
      exact min_le_right _ _
    · rw [if_neg h2, zero_mul, abs_zero]
      exact hh

/-- The clamped logical pan offset is bounded by half the image extent in
each axis, whenever those half-extents are nonnegative. -/
theorem imagePanOffsetClamped_bound (s : CState)
    (hx : 0 ≤ s.imageSize.1 * (1 / 2)) (hy : 0 ≤ s.imageSize.2 * (1 / 2)) :
    |(imagePanOffsetClamped s).1| ≤ s.imageSize.1 * (1 / 2) ∧
    |(imagePanOffsetClamped s).2| ≤ s.imageSize.2 * (1 / 2) :=
  ⟨abs_jsSign_mul_min_le _ _ hx, abs_jsSign_mul_min_le _ _ hy⟩

/-- C7: pan clamping.  In render with zoomScale above 1 the pan offset
computed in logical-image space is clamped so its magnitude never exceeds
half the logical image extent per axis: for imageSize (1000, 1000), for
every panPosition, device pixel ratio, canvas size and fit mode, the
clamped logical offset satisfies abs x at most 500 and abs y at most
500. -/
theorem c7_pan_clamp (s : CState) (him : s.imageSize = (1000, 1000)) :
    |(imagePanOffsetClamped s).1| ≤ 500 ∧ |(imagePanOffsetClamped s).2| ≤ 500 := by
  have h := imagePanOffsetClamped_bound s (by rw [him]; norm_num)
    (by rw [him]; norm_num)
  rw [him] at h
  norm_num at h
  exact h

/-- Witness for C7 at a concrete extreme state. -/
theorem c7_pan_clamp_witness :
    |(imagePanOffsetClamped
        { initialState with
            imageSize := (1000, 1000), zoomScale := 3,
            panPosition := (99999, -5), dpr := 2 }).1| ≤ 500 ∧
    |(imagePanOffsetClamped
        { initialState with
            imageSize := (1000, 1000), zoomScale := 3,
            panPosition := (99999, -5), dpr := 2 }).2| ≤ 500 :=
  c7_pan_clamp _ rfl

/-- C8: zoom identity (noninterference).  With zoomScale equal to 1 the
computed viewport center, and with it every input of the presentation
uniforms, is independent of panPosition. -/
theorem c8_zoom_identity (s : CState) (p q : ℚ × ℚ) (att : Nat)
    (hz : s.zoomScale = 1) :
    computePresent { s with panPosition := p } att =
      computePresent { s with panPosition := q } att := by
  simp [computePresent, canvasImageCenterOf, imageToCanvasScale, hz]

/-- Witness for C8 at concrete states differing only in panPosition. -/
theorem c8_zoom_identity_witness :
    computePresent { initialState with panPosition := (7, 9) } 4 =
      computePresent { initialState with panPosition := (0, 1 / 3) } 4 :=
  c8_zoom_identity initialState (7, 9) (0, 1 / 3) 4 rfl

/-- C9: mask out-of-domain behavior.  For a fragment whose mask UV lies
outside the unit square, the mask sampler is never consulted and the mask
color is vec4(0) before maskOpacity scaling and getMaskValue: the output
equals the output computed with the constantly-zero mask sampler, for any
actual mask sampler. -/
theorem c9_mask_out_of_domain (imageMap layerMap maskMap : ℚ × ℚ → Vec4)
    (cpa maskMode blendMode : Int) (maskOpacity opacity : ℚ)
    (getMaskValue : Vec4 → ℚ) (compositeColors : Vec4 → Vec4 → Vec4)
    (imageUv layerUv maskUv : ℚ × ℚ)
    (h : ¬ (0 ≤ maskUv.1 ∧ maskUv.1 ≤ 1 ∧ 0 ≤ maskUv.2 ∧ maskUv.2 ≤ 1)) :
    fragmentMain imageMap layerMap maskMap cpa maskMode blendMode
      maskOpacity opacity getMaskValue compositeColors imageUv layerUv maskUv =
    fragmentMain imageMap layerMap (fun _ => vzero) cpa maskMode blendMode
      maskOpacity opacity getMaskValue compositeColors imageUv layerUv maskUv := by
  have hb : maskInBounds maskUv = false := by
    unfold maskInBounds
    by_cases a : 0 ≤ maskUv.1
    · by_cases b : 0 ≤ maskUv.2
      · by_cases c : maskUv.1 ≤ 1
        · have d : ¬ maskUv.2 ≤ 1 := fun d => h ⟨a, c, b, d⟩
          have d2 : ¬ (-maskUv.2 ≥ -1) := by simpa using d
          simp [d2]
        · have c2 : ¬ (-maskUv.1 ≥ -1) := by simpa using c
          simp [c2]
      · simp [b]
    · simp [a]
  simp [fragmentMain, hb]

/-- loadTexImage2D when a promise for the url is already pending or
settled: only the Desired Set gains the url, the existing promise is
returned, and nothing else happens. -/
theorem loadTexImage2D_pending (s : CState) (url : Url) (img : Option Nat)
    (t : Nat) (ht : s.texImage2DPromiseCache url = some t) :
    loadTexImage2D s url img =
      ({ s with desiredImages := insertUrl url s.desiredImages }, t,
        ([] : List Ev)) := by
  unfold loadTexImage2D
  rw [ht]

/-- loadTexImage2D with no pending promise and no caller image: a fresh
fetching task is created, registered in the promise cache, and exactly one
fetch is started. -/
theorem loadTexImage2D_fresh_fetch (s : CState) (url : Url)
    (h : s.texImage2DPromiseCache url = none) :
    loadTexImage2D s url none =
      ({ s with
          desiredImages := insertUrl url s.desiredImages
          nextTaskId := s.nextTaskId + 1
          tasks := fun n =>
            if n = s.nextTaskId then
              some { url := url, status := TaskStatus.fetching }
            else s.tasks n
          texImage2DPromiseCache := fun u =>
            if u = url then some s.nextTaskId
            else s.texImage2DPromiseCache u },
        s.nextTaskId, [Ev.fetchStart url s.nextTaskId]) := by
  unfold loadTexImage2D
  rw [h]

/-- loadTexImage2D with no pending promise and a caller-supplied
pre-decoded image: the whole body runs synchronously, the Desired-Set
re-check succeeds (the url was just added), the LayerImage is inserted and
the promise settles with the texture. -/
theorem loadTexImage2D_fresh_supplied (s : CState) (url : Url) (i : Nat)
    (h : s.texImage2DPromiseCache url = none) :
    loadTexImage2D s url (some i) =
      ({ s with
          desiredImages := insertUrl url s.desiredImages
          nextTaskId := s.nextTaskId + 1
          nextTexId := s.nextTexId + 1
          layerImageCache :=
            aset s.layerImageCache url
              { url := url, texImage2D := s.nextTexId
                image := some (ImgHandle.supplied i), renderId := -1 }
          tasks := fun n =>
            if n = s.nextTaskId then
              some { url := url, status := TaskStatus.settledTex s.nextTexId }
            else s.tasks n
          texImage2DPromiseCache := fun u =>
            if u = url then some s.nextTaskId
            else s.texImage2DPromiseCache u },
        s.nextTaskId, [Ev.loadCompleted url s.nextTaskId true]) := by
  simp only [loadTexImage2D, h, mem_insertUrl_self, if_true]

/-- loadContinuation on an unknown promise identifier is a no-op. -/
theorem loadContinuation_none (s : CState) (tid : Nat)
    (h : s.tasks tid = none) : loadContinuation s tid = (s, []) := by
  unfold loadContinuation
  rw [h]

/-- loadContinuation on an already settled promise is a no-op. -/
theorem loadContinuation_settled (s : CState) (tid : Nat) (tk : TaskRec)
    (h : s.tasks tid = some tk) (hs : tk.status ≠ TaskStatus.fetching) :
    loadContinuation s tid = (s, []) := by
  obtain ⟨u, st⟩ := tk
  cases st with
  | fetching => exact absurd rfl hs
  | settledTex tex => simp only [loadContinuation, h]
  | settledNull => simp only [loadContinuation, h]

/-- loadContinuation of a fetching task whose url is still desired:
upload, insert into the Resident Cache, settle with the texture. -/
theorem loadContinuation_success (s : CState) (tid : Nat) (url : Url)
    (h : s.tasks tid = some { url := url, status := TaskStatus.fetching })
    (hd : url ∈ s.desiredImages) :
    loadContinuation s tid =
      ({ s with
          nextTexId := s.nextTexId + 1
          layerImageCache :=
            aset s.layerImageCache url
              { url := url, texImage2D := s.nextTexId
                image := some (ImgHandle.fetched tid), renderId := -1 }
          tasks := fun n =>
            if n = tid then
              some { url := url, status := TaskStatus.settledTex s.nextTexId }
            else s.tasks n },
        [Ev.loadCompleted url tid true]) := by
  simp only [loadContinuation, h, hd, if_true]

/-- loadContinuation of a fetching task whose url is no longer desired:
drop the promise-cache entry, release the fetched bitmap, settle null,
without touching the Resident Cache. -/
theorem loadContinuation_cancel (s : CState) (tid : Nat) (url : Url)
    (h : s.tasks tid = some { url := url, status := TaskStatus.fetching })
    (hd : url ∉ s.desiredImages) :
    loadContinuation s tid =
      ({ s with
          texImage2DPromiseCache := fun u =>
            if u = url then none else s.texImage2DPromiseCache u
          tasks := fun n =>
            if n = tid then
              some { url := url, status := TaskStatus.settledNull }
            else s.tasks n },
        [Ev.released (ImgHandle.fetched tid),
          Ev.loadCompleted url tid false]) := by
  simp only [loadContinuation, h, hd, if_false]

/-- discardTexImage2D of a url that is not desired: no-op returning
false. -/
theorem discardTexImage2D_not_desired (s : CState) (url : Url)
    (h : url ∉ s.desiredImages) :
    discardTexImage2D s url = (s, false, []) := by
  unfold discardTexImage2D
  rw [if_neg h]

/-- discardTexImage2D of a desired url: remove it from the Desired Set,
the Resident Cache (releasing the retained bitmap) and the Pending-Load
Map, returning true. -/
theorem discardTexImage2D_desired (s : CState) (url : Url)
    (h : url ∈ s.desiredImages) :
    discardTexImage2D s url =
      ({ s with
          desiredImages := removeUrl url s.desiredImages
          layerImageCache := aerase s.layerImageCache url
          texImage2DPromiseCache := fun u =>
            if u = url then none else s.texImage2DPromiseCache u },
        true,
        Ev.discarded url ::
          (match alookup s.layerImageCache url with
           | some li =>
             match li.image with
             | some img => [Ev.released img]
             | none => []
           | none => [])) := by
  unfold discardTexImage2D
  rw [if_pos h]

theorem filter_layerDrawEvents (wfb rfb watt : Nat) (i j : Nat) (l : Layer) :
    (layerDrawEvents wfb rfb watt j l).filter (drawsOfLayer i) =
      if j = i then layerDrawEvents wfb rfb watt j l else [] := by
  unfold layerDrawEvents
  by_cases ht : l.isTriviallyBlended <;> by_cases hj : j = i <;>
    simp [ht, hj, drawsOfLayer]

theorem filter_drawsFrom_lt (wfb rfb watt : Nat) (ls : List Layer)
    (k i : Nat) (h : i < k) :
    (drawsFrom wfb rfb watt k ls).filter (drawsOfLayer i) = [] := by
  induction ls generalizing k with
  | nil => rfl
  | cons l ls ih =>
    rw [drawsFrom, List.filter_append, filter_layerDrawEvents,
      if_neg (by omega), ih (k + 1) (by omega), List.nil_append]

theorem filter_drawsFrom (wfb rfb watt : Nat) (ls : List Layer)
    (k j : Nat) (h : j < ls.length) :
    (drawsFrom wfb rfb watt k ls).filter (drawsOfLayer (k + j)) =
      layerDrawEvents wfb rfb watt (k + j) (ls.get ⟨j, h⟩) := by
  induction ls generalizing k j with
  | nil => cases h
  | cons l ls ih =>
    rw [drawsFrom, List.filter_append, filter_layerDrawEvents]
    cases j with
    | zero =>
      rw [Nat.add_zero, if_pos rfl,
        filter_drawsFrom_lt wfb rfb watt ls (k + 1) k (by omega),
        List.append_nil]
      rfl
    | succ j =>
      rw [if_neg (by omega), List.nil_append]
      have harith : k + (j + 1) = (k + 1) + j := by omega
      rw [harith]
      exact ih (k + 1) j (by simpa using h)

/-- Fields of the state untouched by updateOffscreen. -/
theorem updateOffscreen_const (s : CState) :
    (updateOffscreen s).offlineLayerVersion = s.offlineLayerVersion ∧
    (updateOffscreen s).layerVersion = s.layerVersion ∧
    (updateOffscreen s).layers = s.layers := by
  unfold updateOffscreen
  split <;> exact ⟨rfl, rfl, rfl⟩

/-- C4: the copy-then-blend protocol.  For a render that actually
recomposes (layer version newer than the last rendered one), the draw
calls belonging to stack index i are: exactly a copy draw followed by the
blend draw when the layer is not trivially blended, and exactly the blend
draw alone when it is.  The copy draw targets the read framebuffer,
samples the current write color attachment, and is restricted to the
layer placement transform (its localToView is the layer planeToImage); the
blend draw targets the write framebuffer.  Since filtering preserves
relative order, the copy draw is issued strictly before the blend draw in
the full command stream. -/
theorem c4_copy_then_blend (s : CState) (i : Nat)
    (hi : i < s.layers.length)
    (hv : s.offlineLayerVersion < s.layerVersion)
    (wfb rfb watt ratt : Nat)
    (hw : (updateOffscreen s).offscreenWriteFramebuffer = some wfb)
    (hr : (updateOffscreen s).offscreenReadFramebuffer = some rfb)
    (hwa : (updateOffscreen s).offscreenWriteColorAttachment = some watt)
    (hra : (updateOffscreen s).offscreenReadColorAttachment = some ratt) :
    (renderLayersToFramebuffer s).2.filter (drawsOfLayer i) =
      (if (s.layers.get ⟨i, hi⟩).isTriviallyBlended then []
       else [Ev.copyDraw i rfb watt (s.layers.get ⟨i, hi⟩).planeToImage]) ++
      [Ev.blendDraw i wfb (s.layers.get ⟨i, hi⟩).texImage2D
        (s.layers.get ⟨i, hi⟩).planeToImage
        (s.layers.get ⟨i, hi⟩).blendModeBlendState] := by
  obtain ⟨h1, h2, h3⟩ := updateOffscreen_const s
  unfold renderLayersToFramebuffer renderLayersAfterUpdate
  rw [hw, hr, hwa, hra, if_neg (by omega), h3]
  have hthis := filter_drawsFrom wfb rfb watt s.layers 0 i hi
  rw [Nat.zero_add] at hthis
  simp only [List.filter_append]
  rw [hthis]
  simp [drawsOfLayer, layerDrawEvents]

/-- Witness for C4: on a concrete two-layer stack, layer 0 (trivial blend)
gets only its blend draw, layer 1 (non-trivial blend) gets its copy draw
into the read target sampling the write attachment, then its blend
draw. -/
theorem c4_copy_then_blend_witness :
    (renderLayersToFramebuffer c4state).2.filter (drawsOfLayer 0) =
      [Ev.blendDraw 0 0 12 10 0] ∧
    (renderLayersToFramebuffer c4state).2.filter (drawsOfLayer 1) =
      [Ev.copyDraw 1 2 1 20, Ev.blendDraw 1 0 22 20 1] :=
  ⟨(c4_copy_then_blend c4state 0 (by decide) (by decide) 0 2 1 3
      (by decide) (by decide) (by decide) (by decide)).trans (by decide),
   (c4_copy_then_blend c4state 1 (by decide) (by decide) 0 2 1 3
      (by decide) (by decide) (by decide) (by decide)).trans (by decide)⟩

/-- C2: fan-in deduplication.  While a promise for an identifier exists,
any further loadTexImage2D for it returns that same promise, changes
nothing but the (idempotent, synchronous) Desired-Set insertion, and
starts no fetch; a fetch is started exactly once, when no promise exists;
and the Desired-Set insertion is a no-op when the url is already
desired. -/
theorem c2_fanin_dedup (s : CState) (url : Url) (img : Option Nat) :
    (∀ t, s.texImage2DPromiseCache url = some t →
      loadTexImage2D s url img =
        ({ s with desiredImages := insertUrl url s.desiredImages }, t,
          ([] : List Ev))) ∧
    (s.texImage2DPromiseCache url = none → img = none →
      (loadTexImage2D s url img).2.2 = [Ev.fetchStart url s.nextTaskId] ∧
      (loadTexImage2D s url img).2.1 = s.nextTaskId ∧
      (loadTexImage2D s url img).1.texImage2DPromiseCache url =
        some s.nextTaskId ∧
      (loadTexImage2D s url img).1.tasks s.nextTaskId =
        some { url := url, status := TaskStatus.fetching }) ∧
    (url ∈ s.desiredImages →
      (loadTexImage2D s url img).1.desiredImages = s.desiredImages) := by
  refine ⟨fun t ht => loadTexImage2D_pending s url img t ht, ?_, ?_⟩
  · intro h himg
    subst himg
    rw [loadTexImage2D_fresh_fetch s url h]
    refine ⟨rfl, rfl, ?_, ?_⟩
    · simp
    · simp
  · intro hmem
    have hd : (loadTexImage2D s url img).1.desiredImages =
        insertUrl url s.desiredImages := by
      rcases hc : s.texImage2DPromiseCache url with _ | t
      · rcases img with _ | i
        · rw [loadTexImage2D_fresh_fetch s url hc]
        · rw [loadTexImage2D_fresh_supplied s url i hc]
      · rw [loadTexImage2D_pending s url img t hc]
    rw [hd, insertUrl_of_mem url s.desiredImages hmem]

/-- Witness for C2: a pending promise is returned unchanged with no
events; a fresh load starts exactly one fetch; re-adding a desired url
leaves the Desired Set unchanged. -/
theorem c2_fanin_dedup_witness :
    loadTexImage2D
        { initialState with
            desiredImages := ["a"]
            texImage2DPromiseCache := fun u => if u = "a" then some 7 else none }
        "a" none =
      ({ initialState with
          desiredImages :=
            insertUrl "a"
              ({ initialState with
                  desiredImages := ["a"]
                  texImage2DPromiseCache := fun u =>
                    if u = "a" then some 7 else none }).desiredImages
          texImage2DPromiseCache := fun u => if u = "a" then some 7 else none },
        7, ([] : List Ev)) ∧
    (loadTexImage2D initialState "b" none).2.2 = [Ev.fetchStart "b" 0] ∧
    (loadTexImage2D
        { initialState with
            desiredImages := ["a"]
            texImage2DPromiseCache := fun u =>
              if u = "a" then some 7 else none }
        "a" none).1.desiredImages = ["a"] :=
  ⟨(c2_fanin_dedup _ "a" none).1 7 (by simp),
   ((c2_fanin_dedup initialState "b" none).2.1 rfl rfl).1,
   (c2_fanin_dedup _ "a" none).2.2 (by simp)⟩

/-- C10: a load with a caller-supplied pre-decoded image and no pending
promise always resolves with a texture and populates the Resident Cache
(there is no suspension point between the Desired-Set add and the
re-check, so it can never settle cancelled); and the cancelled path of the
load continuation only ever releases images the loader itself fetched,
never a caller-supplied one. -/
theorem c10_predecoded_never_cancelled (s : CState) (url : Url) (i : Nat)
    (h : s.texImage2DPromiseCache url = none) :
    ((loadTexImage2D s url (some i)).1.tasks
        (loadTexImage2D s url (some i)).2.1 =
      some { url := url, status := TaskStatus.settledTex s.nextTexId } ∧
     alookup (loadTexImage2D s url (some i)).1.layerImageCache url =
      some { url := url, texImage2D := s.nextTexId
             image := some (ImgHandle.supplied i), renderId := -1 } ∧
     (loadTexImage2D s url (some i)).2.2 =
      [Ev.loadCompleted url (loadTexImage2D s url (some i)).2.1 true]) ∧
    (∀ (s2 : CState) (tid : Nat) (img : ImgHandle),
      Ev.released img ∈ (loadContinuation s2 tid).2 →
      ∃ n, img = ImgHandle.fetched n) := by
  constructor
  · rw [loadTexImage2D_fresh_supplied s url i h]
    refine ⟨by simp, ?_, rfl⟩
    rw [show ({ s with
        desiredImages := insertUrl url s.desiredImages
        nextTaskId := s.nextTaskId + 1
        nextTexId := s.nextTexId + 1
        layerImageCache :=
          aset s.layerImageCache url
            { url := url, texImage2D := s.nextTexId
              image := some (ImgHandle.supplied i), renderId := -1 }
        tasks := fun n =>
          if n = s.nextTaskId then
            some { url := url, status := TaskStatus.settledTex s.nextTexId }
          else s.tasks n
        texImage2DPromiseCache := fun u =>
          if u = url then some s.nextTaskId
          else s.texImage2DPromiseCache u } : CState).layerImageCache =
      aset s.layerImageCache url
        { url := url, texImage2D := s.nextTexId
          image := some (ImgHandle.supplied i), renderId := -1 } from rfl]
    rw [alookup_aset]
    simp
  · intro s2 tid img hmem
    rcases ht : s2.tasks tid with _ | ⟨u, st⟩
    · rw [loadContinuation_none s2 tid ht] at hmem
      cases hmem
    · cases st with
      | fetching =>
        by_cases hd : u ∈ s2.desiredImages
        · rw [loadContinuation_success s2 tid u ht hd] at hmem
          simp at hmem
        · rw [loadContinuation_cancel s2 tid u ht hd] at hmem
          simp only [List.mem_cons, List.mem_singleton] at hmem
          rcases hmem with hmem | hmem | hmem
          · exact ⟨tid, by injection hmem⟩
          · cases hmem
          · cases hmem
      | settledTex tex =>
        rw [loadContinuation_settled s2 tid { url := u, status := TaskStatus.settledTex tex }
          ht (by simp)] at hmem
        cases hmem
      | settledNull =>
        rw [loadContinuation_settled s2 tid { url := u, status := TaskStatus.settledNull }
          ht (by simp)] at hmem
        cases hmem

/-- Witness for C10: concrete pre-decoded load, and a concrete cancelled
continuation whose released image is the fetched one. -/
theorem c10_predecoded_never_cancelled_witness :
    ((loadTexImage2D initialState "a" (some 5)).1.tasks
        (loadTexImage2D initialState "a" (some 5)).2.1 =
      some { url := "a", status := TaskStatus.settledTex 0 } ∧
     alookup (loadTexImage2D initialState "a" (some 5)).1.layerImageCache "a" =
      some { url := "a", texImage2D := 0
             image := some (ImgHandle.supplied 5), renderId := -1 } ∧
     (loadTexImage2D initialState "a" (some 5)).2.2 =
      [Ev.loadCompleted "a" (loadTexImage2D initialState "a" (some 5)).2.1 true]) ∧
    (∀ (s2 : CState) (tid : Nat) (img : ImgHandle),
      Ev.released img ∈ (loadContinuation s2 tid).2 →
      ∃ n, img = ImgHandle.fetched n) :=
  c10_predecoded_never_cancelled initialState "a" 5 rfl

/-! ### Unchangedness of state components -/

/-- Extract the componentwise equations from a nonResidentFields
equality. -/
theorem nonResident_eq_fields (a b : CState)
    (h : nonResidentFields a = nonResidentFields b) :
    a.desiredImages = b.desiredImages ∧
    a.texImage2DPromiseCache = b.texImage2DPromiseCache ∧
    a.tasks = b.tasks ∧ a.nextTaskId = b.nextTaskId ∧
    a.nextTexId = b.nextTexId ∧ a.autoDiscard = b.autoDiscard ∧
    a.renderId = b.renderId ∧ a.imageSize = b.imageSize ∧
    a.imageFitMode = b.imageFitMode ∧ a.zoomScale = b.zoomScale ∧
    a.panPosition = b.panPosition ∧ a.dpr = b.dpr ∧
    a.canvasSize = b.canvasSize ∧ a.layers = b.layers ∧
    a.layerVersion = b.layerVersion ∧
    a.offlineLayerVersion = b.offlineLayerVersion ∧
    a.offscreenSize = b.offscreenSize ∧
    a.offscreenWriteFramebuffer = b.offscreenWriteFramebuffer ∧
    a.offscreenWriteColorAttachment = b.offscreenWriteColorAttachment ∧
    a.offscreenReadFramebuffer = b.offscreenReadFramebuffer ∧
    a.offscreenReadColorAttachment = b.offscreenReadColorAttachment ∧
    a.nextFbId = b.nextFbId ∧
    a.offscreenWriteLog = b.offscreenWriteLog ∧
    a.offscreenReadLog = b.offscreenReadLog := by
  simp only [nonResidentFields, nonCacheFields, Prod.mk.injEq] at h
  tauto

/-- Extract the componentwise equations from a nonCacheFields equality. -/
theorem nonCache_eq_fields (a b : CState)
    (h : nonCacheFields a = nonCacheFields b) :
    a.tasks = b.tasks ∧ a.nextTaskId = b.nextTaskId ∧
    a.nextTexId = b.nextTexId ∧ a.autoDiscard = b.autoDiscard ∧
    a.renderId = b.renderId ∧ a.imageSize = b.imageSize ∧
    a.imageFitMode = b.imageFitMode ∧ a.zoomScale = b.zoomScale ∧
    a.panPosition = b.panPosition ∧ a.dpr = b.dpr ∧
    a.canvasSize = b.canvasSize ∧ a.layers = b.layers ∧
    a.layerVersion = b.layerVersion ∧
    a.offlineLayerVersion = b.offlineLayerVersion ∧
    a.offscreenSize = b.offscreenSize ∧
    a.offscreenWriteFramebuffer = b.offscreenWriteFramebuffer ∧
    a.offscreenWriteColorAttachment = b.offscreenWriteColorAttachment ∧
    a.offscreenReadFramebuffer = b.offscreenReadFramebuffer ∧
    a.offscreenReadColorAttachment = b.offscreenReadColorAttachment ∧
    a.nextFbId = b.nextFbId ∧
    a.offscreenWriteLog = b.offscreenWriteLog ∧
    a.offscreenReadLog = b.offscreenReadLog := by
  simp only [nonCacheFields, Prod.mk.injEq] at h
  tauto

/-- discardTexImage2D touches only the three cache maps. -/
theorem discardTexImage2D_nonCache (s : CState) (url : Url) :
    nonCacheFields (discardTexImage2D s url).1 = nonCacheFields s := by
  unfold discardTexImage2D
  split <;> rfl

/-- One auto-discard iteration touches only the three cache maps. -/
theorem autoDiscardStep_nonCache (acc : CState × List Ev)
    (p : Url × LayerImage) :
    nonCacheFields (autoDiscardStep acc p).1 = nonCacheFields acc.1 := by
  unfold autoDiscardStep
  split
  · rfl
  · split
    · exact discardTexImage2D_nonCache _ _
    · rfl

theorem autoDiscardFold_nonCache (l : List (Url × LayerImage))
    (acc : CState × List Ev) :
    nonCacheFields (l.foldl autoDiscardStep acc).1 = nonCacheFields acc.1 := by
  induction l generalizing acc with
  | nil => rfl
  | cons p l ih =>
    rw [List.foldl_cons]
    exact (ih (autoDiscardStep acc p)).trans (autoDiscardStep_nonCache acc p)

/-- The auto-discard sweep touches only the three cache maps. -/
theorem autoDiscardPass_nonCache (s : CState) :
    nonCacheFields (autoDiscardPass s).1 = nonCacheFields s :=
  autoDiscardFold_nonCache s.layerImageCache (s, [])

/-- Usage stamping for one url touches only the Resident Cache. -/
theorem stampUrl_nonResident (s : CState) (url : Url) :
    nonResidentFields (stampUrl s url) = nonResidentFields s := by
  unfold stampUrl
  split <;> rfl

/-- Usage stamping for one layer touches only the Resident Cache. -/
theorem stampLayer_nonResident (s : CState) (l : Layer) :
    nonResidentFields (stampLayer s l) = nonResidentFields s := by
  unfold stampLayer
  split
  · exact (stampUrl_nonResident _ _).trans (stampUrl_nonResident _ _)
  · exact stampUrl_nonResident _ _

theorem stampFold_nonResident (ls : List Layer) (s : CState) :
    nonResidentFields (ls.foldl stampLayer s) = nonResidentFields s := by
  induction ls generalizing s with
  | nil => rfl
  | cons l ls ih =>
    rw [List.foldl_cons]
    exact (ih (stampLayer s l)).trans (stampLayer_nonResident s l)

/-- The whole usage-stamping pass touches only the Resident Cache. -/
theorem stampAll_nonResident (s : CState) :
    nonResidentFields (stampAll s) = nonResidentFields s :=
  stampFold_nonResident s.layers s

/-- updateOffscreen always leaves the offscreen size at the power-of-two
round-up of the image size. -/
theorem updateOffscreen_size (s : CState) :
    (updateOffscreen s).offscreenSize =
      (ceilPow2 s.imageSize.1, ceilPow2 s.imageSize.2) := by
  unfold updateOffscreen
  split
  · rfl
  · rename_i h
    push_neg at h
    exact h.2.2

/-- Fields of the state untouched by updateOffscreen (everything except
the offscreen buffer allocation). -/
theorem updateOffscreen_keeps (s : CState) :
    (updateOffscreen s).desiredImages = s.desiredImages ∧
    (updateOffscreen s).layerImageCache = s.layerImageCache ∧
    (updateOffscreen s).texImage2DPromiseCache = s.texImage2DPromiseCache ∧
    (updateOffscreen s).tasks = s.tasks ∧
    (updateOffscreen s).autoDiscard = s.autoDiscard ∧
    (updateOffscreen s).renderId = s.renderId ∧
    (updateOffscreen s).imageSize = s.imageSize ∧
    (updateOffscreen s).layers = s.layers ∧
    (updateOffscreen s).layerVersion = s.layerVersion ∧
    (updateOffscreen s).offlineLayerVersion = s.offlineLayerVersion := by
  unfold updateOffscreen
  split <;>
    exact ⟨rfl, rfl, rfl, rfl, rfl, rfl, rfl, rfl, rfl, rfl⟩

/-- updateOffscreen always leaves both framebuffers allocated. -/
theorem updateOffscreen_fb_some (s : CState) :
    (updateOffscreen s).offscreenWriteFramebuffer.isSome ∧
    (updateOffscreen s).offscreenReadFramebuffer.isSome := by
  unfold updateOffscreen
  split
  · exact ⟨rfl, rfl⟩
  · rename_i h
    push_neg at h
    exact ⟨Option.ne_none_iff_isSome.mp h.1, Option.ne_none_iff_isSome.mp h.2.1⟩

/-- When a missing write attachment implies a missing write framebuffer
(true of every reachable state: both are created together), updateOffscreen
leaves the write color attachment allocated. -/
theorem updateOffscreen_watt_some (s : CState)
    (hco : s.offscreenWriteColorAttachment = none →
      s.offscreenWriteFramebuffer = none) :
    (updateOffscreen s).offscreenWriteColorAttachment.isSome := by
  unfold updateOffscreen
  split
  · rfl
  · rename_i h
    push_neg at h
    rcases ha : s.offscreenWriteColorAttachment with _ | a
    · exact absurd (hco ha) h.1
    · rfl

/-- When a missing read attachment implies a missing read framebuffer
(true of every reachable state), updateOffscreen leaves the read color
attachment allocated. -/
theorem updateOffscreen_ratt_some (s : CState)
    (hco : s.offscreenReadColorAttachment = none →
      s.offscreenReadFramebuffer = none) :
    (updateOffscreen s).offscreenReadColorAttachment.isSome := by
  unfold updateOffscreen
  split
  · rfl
  · rename_i h
    push_neg at h
    rcases ha : s.offscreenReadColorAttachment with _ | a
    · exact absurd (hco ha) h.2.1
    · rfl

/-- The recomposition body is skipped when the layer version has already
been rendered. -/
theorem renderLayersAfterUpdate_skip (s : CState)
    (h : s.offlineLayerVersion ≥ s.layerVersion) :
    renderLayersAfterUpdate s = (s, []) := by
  unfold renderLayersAfterUpdate
  rw [if_pos h]

/-- Fields of the state untouched by the recomposition body (everything
except offlineLayerVersion, the Resident Cache stamps and the content
logs). -/
theorem renderLayersAfterUpdate_keeps (s : CState) :
    (renderLayersAfterUpdate s).1.desiredImages = s.desiredImages ∧
    (renderLayersAfterUpdate s).1.texImage2DPromiseCache =
      s.texImage2DPromiseCache ∧
    (renderLayersAfterUpdate s).1.tasks = s.tasks ∧
    (renderLayersAfterUpdate s).1.autoDiscard = s.autoDiscard ∧
    (renderLayersAfterUpdate s).1.renderId = s.renderId ∧
    (renderLayersAfterUpdate s).1.imageSize = s.imageSize ∧
    (renderLayersAfterUpdate s).1.layers = s.layers ∧
    (renderLayersAfterUpdate s).1.layerVersion = s.layerVersion ∧
    (renderLayersAfterUpdate s).1.offscreenSize = s.offscreenSize ∧
    (renderLayersAfterUpdate s).1.offscreenWriteFramebuffer =
      s.offscreenWriteFramebuffer ∧
    (renderLayersAfterUpdate s).1.offscreenWriteColorAttachment =
      s.offscreenWriteColorAttachment ∧
    (renderLayersAfterUpdate s).1.offscreenReadFramebuffer =
      s.offscreenReadFramebuffer ∧
    (renderLayersAfterUpdate s).1.offscreenReadColorAttachment =
      s.offscreenReadColorAttachment := by
  unfold renderLayersAfterUpdate
  split
  · exact ⟨rfl, rfl, rfl, rfl, rfl, rfl, rfl, rfl, rfl, rfl, rfl, rfl, rfl⟩
  · split
    · obtain ⟨k1, k2, k3, k4, k5, k6, k7, k8, k9, k10, k11, k12, k13, k14,
        k15, k16, k17, k18, k19, k20, k21, k22, k23, k24⟩ :=
        nonResident_eq_fields _ _
          (stampAll_nonResident { s with offlineLayerVersion := s.layerVersion })
      exact ⟨k1, k2, k3, k6, k7, k8, k14, k15, k17, k18, k19, k20, k21⟩
    · exact ⟨rfl, rfl, rfl, rfl, rfl, rfl, rfl, rfl, rfl, rfl, rfl, rfl, rfl⟩

/-- After the recomposition body the stored offline version has caught up
with the layer version. -/
theorem renderLayersAfterUpdate_offline_ge (s : CState) :
    (renderLayersAfterUpdate s).1.offlineLayerVersion ≥ s.layerVersion := by
  unfold renderLayersAfterUpdate
  split
  · rename_i h
    exact h
  · split
    · obtain ⟨k1, k2, k3, k4, k5, k6, k7, k8, k9, k10, k11, k12, k13, k14,
        k15, k16, k17, k18, k19, k20, k21, k22, k23, k24⟩ :=
        nonResident_eq_fields _ _
          (stampAll_nonResident { s with offlineLayerVersion := s.layerVersion })
      have : (stampAll { s with offlineLayerVersion := s.layerVersion
          }).offlineLayerVersion = s.layerVersion := k16
      exact ge_of_eq this
    · exact ge_of_eq rfl

/-- Every event of discardTexImage2D is a discard or a release, never
offscreen work. -/
theorem discardTexImage2D_evs_not_work (s : CState) (url : Url) (e : Ev)
    (he : e ∈ (discardTexImage2D s url).2.2) : isOffscreenWork e = false := by
  unfold discardTexImage2D at he
  split at he
  · rcases List.mem_cons.mp he with rfl | he2
    · rfl
    · split at he2
      · split at he2
        · rw [List.mem_singleton] at he2
          subst he2
          rfl
        · cases he2
      · cases he2
  · cases he

theorem autoDiscardStep_evs (acc : CState × List Ev) (p : Url × LayerImage)
    (e : Ev) (he : e ∈ (autoDiscardStep acc p).2) :
    e ∈ acc.2 ∨ isOffscreenWork e = false := by
  unfold autoDiscardStep at he
  split at he
  · exact Or.inl he
  · split at he
    · rcases List.mem_append.mp he with h | h
      · exact Or.inl h
      · exact Or.inr (discardTexImage2D_evs_not_work _ _ e h)
    · exact Or.inl he

theorem autoDiscardFold_evs (l : List (Url × LayerImage))
    (acc : CState × List Ev)
    (hacc : ∀ e ∈ acc.2, isOffscreenWork e = false) :
    ∀ e ∈ (l.foldl autoDiscardStep acc).2, isOffscreenWork e = false := by
  induction l generalizing acc with
  | nil => exact hacc
  | cons p l ih =>
    rw [List.foldl_cons]
    refine ih (autoDiscardStep acc p) ?_
    intro e he
    rcases autoDiscardStep_evs acc p e he with h | h
    · exact hacc e h
    · exact h

/-- The auto-discard sweep emits no offscreen work. -/
theorem autoDiscardPass_evs (s : CState) :
    ∀ e ∈ (autoDiscardPass s).2, isOffscreenWork e = false :=
  autoDiscardFold_evs s.layerImageCache (s, []) (fun e he => absurd he
    (List.not_mem_nil e))

/-- The presentation stage touches only the three cache maps. -/
theorem renderAfterCompose_keeps (r : CState × List Ev) :
    nonCacheFields (renderAfterCompose r).1 = nonCacheFields r.1 := by
  unfold renderAfterCompose
  split
  · rfl
  · split
    · exact autoDiscardPass_nonCache _
    · rfl

/-- When the write color attachment exists the presentation stage emits
the presentation draw, and every emitted event is either inherited, the
presentation draw itself, or (an auto-discard event) not offscreen
work. -/
theorem renderAfterCompose_present (r : CState × List Ev) (att : Nat)
    (hatt : r.1.offscreenWriteColorAttachment = some att) :
    Ev.presentDraw (computePresent r.1 att) ∈ (renderAfterCompose r).2 ∧
    ∀ e ∈ (renderAfterCompose r).2,
      e ∈ r.2 ∨ e = Ev.presentDraw (computePresent r.1 att) ∨
        isOffscreenWork e = false := by
  simp only [renderAfterCompose, hatt]
  split
  · constructor
    · exact List.mem_append.mpr (Or.inl (List.mem_append.mpr
        (Or.inr (List.mem_singleton.mpr rfl))))
    · intro e he
      rcases List.mem_append.mp he with h | h
      · rcases List.mem_append.mp h with h2 | h2
        · exact Or.inl h2
        · exact Or.inr (Or.inl (List.mem_singleton.mp h2))
      · exact Or.inr (Or.inr (autoDiscardPass_evs _ e h))
  · constructor
    · exact List.mem_append.mpr (Or.inr (List.mem_singleton.mpr rfl))
    · intro e he
      rcases List.mem_append.mp he with h | h
      · exact Or.inl h
      · exact Or.inr (Or.inl (List.mem_singleton.mp h))

/-- updateOffscreen is the identity when both framebuffers exist and the
offscreen size already equals the power-of-two round-up. -/
theorem updateOffscreen_id (t : CState)
    (h1 : t.offscreenWriteFramebuffer.isSome)
    (h2 : t.offscreenReadFramebuffer.isSome)
    (h3 : t.offscreenSize = (ceilPow2 t.imageSize.1, ceilPow2 t.imageSize.2)) :
    updateOffscreen t = t := by
  unfold updateOffscreen
  rw [if_neg]
  push_neg
  exact ⟨Option.ne_none_iff_isSome.mpr h1, Option.ne_none_iff_isSome.mpr h2, h3⟩

/-- C5: recomposition caching.  For two consecutive render() calls (no
intervening layers assignment), the second call performs zero offscreen
recomposition work: the offscreen write and read framebuffers and color
attachments are the same objects afterwards, their ghost content logs are
unchanged (renderLayersToFramebuffer returns before any clear or draw, and
no emitted event is offscreen work), yet the presentation draw to the
visible surface is still issued.  The hypothesis (a missing write
attachment implies a missing write framebuffer) holds in every reachable
state because the two are only ever created together. -/
theorem c5_recomposition_cached (s : CState)
    (hco : s.offscreenWriteColorAttachment = none →
      s.offscreenWriteFramebuffer = none) :
    (render (render s).1).1.offscreenWriteFramebuffer =
      (render s).1.offscreenWriteFramebuffer ∧
    (render (render s).1).1.offscreenWriteColorAttachment =
      (render s).1.offscreenWriteColorAttachment ∧
    (render (render s).1).1.offscreenReadFramebuffer =
      (render s).1.offscreenReadFramebuffer ∧
    (render (render s).1).1.offscreenReadColorAttachment =
      (render s).1.offscreenReadColorAttachment ∧
    (render (render s).1).1.offscreenWriteLog =
      (render s).1.offscreenWriteLog ∧
    (render (render s).1).1.offscreenReadLog =
      (render s).1.offscreenReadLog ∧
    (∀ e ∈ (render (render s).1).2, isOffscreenWork e = false) ∧
    (∃ u, Ev.presentDraw u ∈ (render (render s).1).2) := by
  obtain ⟨r1, r2, r3, r4, r5, r6, r7, r8, r9, r10, r11, r12, r13⟩ :=
    renderLayersAfterUpdate_keeps
      (updateOffscreen { s with renderId := s.renderId + 1 })
  obtain ⟨c1, c2, c3, c4, c5, c6, c7, c8, c9, c10, c11, c12, c13, c14, c15,
    c16, c17, c18, c19, c20, c21, c22⟩ :=
    nonCache_eq_fields _ _ (renderAfterCompose_keeps
      (renderLayersAfterUpdate
        (updateOffscreen { s with renderId := s.renderId + 1 })))
  have hwatt1 : (render s).1.offscreenWriteColorAttachment.isSome := by
    show (renderAfterCompose (renderLayersAfterUpdate
      (updateOffscreen { s with renderId := s.renderId + 1
        }))).1.offscreenWriteColorAttachment.isSome
    rw [c17, r11]
    exact updateOffscreen_watt_some { s with renderId := s.renderId + 1 } hco
  have hfb1w : (render s).1.offscreenWriteFramebuffer.isSome := by
    show (renderAfterCompose (renderLayersAfterUpdate
      (updateOffscreen { s with renderId := s.renderId + 1
        }))).1.offscreenWriteFramebuffer.isSome
    rw [c16, r10]
    exact (updateOffscreen_fb_some { s with renderId := s.renderId + 1 }).1
  have hfb1r : (render s).1.offscreenReadFramebuffer.isSome := by
    show (renderAfterCompose (renderLayersAfterUpdate
      (updateOffscreen { s with renderId := s.renderId + 1
        }))).1.offscreenReadFramebuffer.isSome
    rw [c18, r12]
    exact (updateOffscreen_fb_some { s with renderId := s.renderId + 1 }).2
  have himg1 : (render s).1.imageSize = s.imageSize := by
    show (renderAfterCompose (renderLayersAfterUpdate
      (updateOffscreen { s with renderId := s.renderId + 1
        }))).1.imageSize = s.imageSize
    rw [c6, r6]
    exact (updateOffscreen_keeps
      { s with renderId := s.renderId + 1 }).2.2.2.2.2.2.1
  have hsize1 : (render s).1.offscreenSize =
      (ceilPow2 (render s).1.imageSize.1, ceilPow2 (render s).1.imageSize.2) := by
    rw [himg1]
    show (renderAfterCompose (renderLayersAfterUpdate
      (updateOffscreen { s with renderId := s.renderId + 1
        }))).1.offscreenSize = _
    rw [c15, r9]
    exact updateOffscreen_size { s with renderId := s.renderId + 1 }
  have hoff1 : (render s).1.offlineLayerVersion ≥ (render s).1.layerVersion := by
    show (renderAfterCompose (renderLayersAfterUpdate
      (updateOffscreen { s with renderId := s.renderId + 1
        }))).1.offlineLayerVersion ≥ _
    rw [c14]
    have hlv : (render s).1.layerVersion =
        (updateOffscreen { s with renderId := s.renderId + 1 }).layerVersion := by
      show (renderAfterCompose (renderLayersAfterUpdate
        (updateOffscreen { s with renderId := s.renderId + 1
          }))).1.layerVersion = _
      rw [c13, r8]
    rw [hlv]
    exact renderLayersAfterUpdate_offline_ge _
  have hid2 : updateOffscreen
      { (render s).1 with renderId := (render s).1.renderId + 1 } =
      { (render s).1 with renderId := (render s).1.renderId + 1 } :=
    updateOffscreen_id _ hfb1w hfb1r hsize1
  have hskip2 : renderLayersAfterUpdate
      { (render s).1 with renderId := (render s).1.renderId + 1 } =
      ({ (render s).1 with renderId := (render s).1.renderId + 1 }, []) :=
    renderLayersAfterUpdate_skip _ hoff1
  have hrender2 : render (render s).1 = renderAfterCompose
      ({ (render s).1 with renderId := (render s).1.renderId + 1 },
        ([] : List Ev)) := by
    show renderAfterCompose (renderLayersAfterUpdate (updateOffscreen
      { (render s).1 with renderId := (render s).1.renderId + 1 })) = _
    rw [hid2, hskip2]
  obtain ⟨att, hatt⟩ := Option.isSome_iff_exists.mp hwatt1
  have hpres := renderAfterCompose_present
    ({ (render s).1 with renderId := (render s).1.renderId + 1 },
      ([] : List Ev)) att hatt
  obtain ⟨d1, d2, d3, d4, d5, d6, d7, d8, d9, d10, d11, d12, d13, d14, d15,
    d16, d17, d18, d19, d20, d21, d22⟩ :=
    nonCache_eq_fields _ _ (renderAfterCompose_keeps
      ({ (render s).1 with renderId := (render s).1.renderId + 1 },
        ([] : List Ev)))
  refine ⟨?_, ?_, ?_, ?_, ?_, ?_, ?_, ?_⟩
  · rw [hrender2]
    exact d16
  · rw [hrender2]
    exact d17
  · rw [hrender2]
    exact d18
  · rw [hrender2]
    exact d19
  · rw [hrender2]
    exact d21
  · rw [hrender2]
    exact d22
  · rw [hrender2]
    intro e he
    rcases hpres.2 e he with h | h | h
    · exact absurd h (List.not_mem_nil e)
    · rw [h]
      rfl
    · exact h
  · rw [hrender2]
    exact ⟨_, hpres.1⟩

/-- Witness for C5 at the initial state (immediately satisfying the
buffer-coherence hypothesis). -/
theorem c5_recomposition_cached_witness :
    (render (render initialState).1).1.offscreenWriteFramebuffer =
      (render initialState).1.offscreenWriteFramebuffer ∧
    (render (render initialState).1).1.offscreenWriteColorAttachment =
      (render initialState).1.offscreenWriteColorAttachment ∧
    (render (render initialState).1).1.offscreenReadFramebuffer =
      (render initialState).1.offscreenReadFramebuffer ∧
    (render (render initialState).1).1.offscreenReadColorAttachment =
      (render initialState).1.offscreenReadColorAttachment ∧
    (render (render initialState).1).1.offscreenWriteLog =
      (render initialState).1.offscreenWriteLog ∧
    (render (render initialState).1).1.offscreenReadLog =
      (render initialState).1.offscreenReadLog ∧
    (∀ e ∈ (render (render initialState).1).2, isOffscreenWork e = false) ∧
    (∃ u, Ev.presentDraw u ∈ (render (render initialState).1).2) :=
  c5_recomposition_cached initialState (fun _ => rfl)

/-! ### Characterization of the auto-discard sweep -/

theorem evictedIn_nil (s : CState) (url : Url) : ¬ evictedIn [] s url := by
  rintro ⟨_, p, hp, _⟩
  cases hp

theorem evictedIn_cons (p : Url × LayerImage) (l : List (Url × LayerImage))
    (s : CState) (url : Url) :
    evictedIn (p :: l) s url ↔
      (url ∈ s.desiredImages ∧ p.1 = url ∧ p.2.renderId < s.renderId) ∨
        evictedIn l s url := by
  unfold evictedIn
  constructor
  · rintro ⟨hd, q, hq, hq1, hq2⟩
    rcases List.mem_cons.mp hq with rfl | hq3
    · exact Or.inl ⟨hd, hq1, hq2⟩
    · exact Or.inr ⟨hd, q, hq3, hq1, hq2⟩
  · rintro (⟨hd, h1, h2⟩ | ⟨hd, q, hq, hq1, hq2⟩)
    · exact ⟨hd, p, List.mem_cons_self p l, h1, h2⟩
    · exact ⟨hd, q, List.mem_cons.mpr (Or.inr hq), hq1, hq2⟩

theorem evictedIn_not_mem_keys (l : List (Url × LayerImage)) (s : CState)
    (url : Url) (hk : url ∉ l.map (fun p => p.1)) : ¬ evictedIn l s url := by
  rintro ⟨_, q, hq, hq1, _⟩
  exact hk (List.mem_map.mpr ⟨q, hq, hq1⟩)

theorem evictedIn_state (l : List (Url × LayerImage)) (s s2 : CState)
    (url : Url) (hd : url ∈ s2.desiredImages ↔ url ∈ s.desiredImages)
    (hr : s2.renderId = s.renderId) :
    evictedIn l s2 url ↔ evictedIn l s url := by
  unfold evictedIn
  rw [hd, hr]

/-- Componentwise effect of a discard that fires. -/
theorem discardTexImage2D_fields (s : CState) (v : Url)
    (hv : v ∈ s.desiredImages) :
    (∀ url, alookup (discardTexImage2D s v).1.layerImageCache url =
      if url = v then none else alookup s.layerImageCache url) ∧
    (∀ url, url ∈ (discardTexImage2D s v).1.desiredImages ↔
      url ∈ s.desiredImages ∧ ¬ url = v) ∧
    (∀ url, (discardTexImage2D s v).1.texImage2DPromiseCache url =
      if url = v then none else s.texImage2DPromiseCache url) := by
  rw [discardTexImage2D_desired s v hv]
  exact ⟨fun url => alookup_aerase _ _ _,
    fun url => mem_removeUrl url v s.desiredImages, fun url => rfl⟩

/-- The events of a discard call are the discard notice and bitmap
releases. -/
theorem discardTexImage2D_evs_shape (s : CState) (v : Url) :
    ∀ e ∈ (discardTexImage2D s v).2.2,
      (∃ u, e = Ev.discarded u) ∨ ∃ img, e = Ev.released img := by
  unfold discardTexImage2D
  split
  · intro e he
    rcases List.mem_cons.mp he with rfl | he2
    · exact Or.inl ⟨v, rfl⟩
    · right
      split at he2
      · split at he2
        · rw [List.mem_singleton] at he2
          exact ⟨_, he2⟩
        · cases he2
      · cases he2
  · intro e he
    cases he

/-- A discard notice for u appears in a discard call for v exactly when u
is v and the call fired. -/
theorem discarded_mem_discardTexImage2D (s : CState) (v u : Url) :
    Ev.discarded u ∈ (discardTexImage2D s v).2.2 ↔
      u = v ∧ v ∈ s.desiredImages := by
  unfold discardTexImage2D
  split
  · rename_i hdes
    constructor
    · intro he
      rcases List.mem_cons.mp he with he1 | he2
      · injection he1 with h1
        exact ⟨h1, hdes⟩
      · exfalso
        split at he2
        · split at he2
          · rw [List.mem_singleton] at he2
            cases he2
          · cases he2
        · cases he2
    · rintro ⟨rfl, _⟩
      exact List.mem_cons_self _ _
  · rename_i hdes
    constructor
    · intro he
      cases he
    · rintro ⟨_, hv⟩
      exact absurd hv hdes

/-- One auto-discard iteration on an entry consistent with the cache. -/
theorem autoDiscardStep_eq (acc : CState × List Ev) (p : Url × LayerImage)
    (hp : alookup acc.1.layerImageCache p.1 = some p.2) :
    autoDiscardStep acc p =
      if p.2.renderId < acc.1.renderId then
        ((discardTexImage2D acc.1 p.1).1,
          acc.2 ++ (discardTexImage2D acc.1 p.1).2.2)
      else acc := by
  unfold autoDiscardStep
  rw [hp]

/-- Full characterization of the auto-discard fold over a list of resident
entries with distinct keys consistent with the current cache: a url is
evicted exactly when it is desired and one of its listed entries is stale;
eviction removes it from the Resident Cache, the Desired Set and the
Pending-Load Map and emits its discard notice; everything else is
untouched.  The emitted events are only discard notices and releases. -/
theorem autoDiscardFold_char (l : List (Url × LayerImage))
    (acc : CState × List Ev)
    (hnd : (l.map (fun p => p.1)).Nodup)
    (hcon : ∀ p ∈ l, alookup acc.1.layerImageCache p.1 = some p.2) :
    (∀ url, alookup (l.foldl autoDiscardStep acc).1.layerImageCache url =
        if evictedIn l acc.1 url then none
        else alookup acc.1.layerImageCache url) ∧
    (∀ url, url ∈ (l.foldl autoDiscardStep acc).1.desiredImages ↔
        (url ∈ acc.1.desiredImages ∧ ¬ evictedIn l acc.1 url)) ∧
    (∀ url, (l.foldl autoDiscardStep acc).1.texImage2DPromiseCache url =
        if evictedIn l acc.1 url then none
        else acc.1.texImage2DPromiseCache url) ∧
    (∃ extra, (l.foldl autoDiscardStep acc).2 = acc.2 ++ extra ∧
      (∀ e ∈ extra, (∃ u, e = Ev.discarded u) ∨ ∃ img, e = Ev.released img) ∧
      (∀ url, Ev.discarded url ∈ extra ↔ evictedIn l acc.1 url)) := by
  induction l generalizing acc with
  | nil =>
    refine ⟨fun url => ?_, fun url => ?_, fun url => ?_,
      ⟨[], (List.append_nil acc.2).symm,
        fun e he => absurd he (List.not_mem_nil e), fun url => ?_⟩⟩
    · rw [if_neg (evictedIn_nil acc.1 url)]
      rfl
    · simp [evictedIn_nil acc.1 url]
    · rw [if_neg (evictedIn_nil acc.1 url)]
      rfl
    · simp [evictedIn_nil acc.1 url]
  | cons p l ih =>
    rw [List.map_cons, List.nodup_cons] at hnd
    have hp : alookup acc.1.layerImageCache p.1 = some p.2 :=
      hcon p (List.mem_cons_self p l)
    rw [List.foldl_cons, autoDiscardStep_eq acc p hp]
    by_cases hlt : p.2.renderId < acc.1.renderId
    · rw [if_pos hlt]
      by_cases hdes : p.1 ∈ acc.1.desiredImages
      · -- the discard fires
        obtain ⟨fc, fd, fp⟩ := discardTexImage2D_fields acc.1 p.1 hdes
        have hrid : (discardTexImage2D acc.1 p.1).1.renderId = acc.1.renderId :=
          (nonCache_eq_fields _ _
            (discardTexImage2D_nonCache acc.1 p.1)).2.2.2.2.1
        have hcon2 : ∀ q ∈ l, alookup
            (discardTexImage2D acc.1 p.1).1.layerImageCache q.1 = some q.2 := by
          intro q hq
          rw [fc q.1, if_neg ?_]
          · exact hcon q (List.mem_cons.mpr (Or.inr hq))
          · intro he
            exact hnd.1 (he ▸ List.mem_map.mpr ⟨q, hq, rfl⟩)
        obtain ⟨ic, id2, ip, extra, hev, hsh, hdm⟩ :=
          ih ((discardTexImage2D acc.1 p.1).1,
            acc.2 ++ (discardTexImage2D acc.1 p.1).2.2) hnd.2 hcon2
        have htr : ∀ url, evictedIn l (discardTexImage2D acc.1 p.1).1 url ↔
            (evictedIn (p :: l) acc.1 url ∧ ¬ url = p.1) := by
          intro url
          by_cases hup : url = p.1
          · subst hup
            constructor
            · rintro ⟨hd2, _⟩
              rw [fd p.1] at hd2
              exact absurd rfl hd2.2
            · rintro ⟨_, h⟩
              exact absurd rfl h
          · constructor
            · rintro ⟨hd2, q, hq, hq1, hq2⟩
              rw [fd url] at hd2
              rw [hrid] at hq2
              exact ⟨⟨hd2.1, q, List.mem_cons.mpr (Or.inr hq), hq1, hq2⟩, hup⟩
            · rintro ⟨⟨hd2, q, hq, hq1, hq2⟩, _⟩
              rcases List.mem_cons.mp hq with rfl | hq3
              · exact absurd hq1.symm hup
              · refine ⟨?_, q, hq3, hq1, ?_⟩
                · rw [fd url]
                  exact ⟨hd2, hup⟩
                · rw [hrid]
                  exact hq2
        have hevp : evictedIn (p :: l) acc.1 p.1 := by
          rw [evictedIn_cons]
          exact Or.inl ⟨hdes, rfl, hlt⟩
        refine ⟨fun url => ?_, fun url => ?_, fun url => ?_, ?_⟩
        · rw [ic url]
          by_cases hup : url = p.1
          · subst hup
            rw [if_neg (fun h => ((htr p.1).mp h).2 rfl), fc p.1, if_pos rfl,
              if_pos hevp]
          · by_cases he : evictedIn (p :: l) acc.1 url
            · rw [if_pos ((htr url).mpr ⟨he, hup⟩), if_pos he]
            · rw [if_neg (fun h => he ((htr url).mp h).1), fc url,
                if_neg hup, if_neg he]
        · rw [id2 url]
          by_cases hup : url = p.1
          · subst hup
            constructor
            · rintro ⟨hd2, _⟩
              rw [fd p.1] at hd2
              exact absurd rfl hd2.2
            · rintro ⟨_, hne⟩
              exact absurd hevp hne
          · constructor
            · rintro ⟨hd2, hne⟩
              rw [fd url] at hd2
              exact ⟨hd2.1, fun h => hne ((htr url).mpr ⟨h, hup⟩)⟩
            · rintro ⟨hd2, hne⟩
              refine ⟨?_, fun h => hne ((htr url).mp h).1⟩
              rw [fd url]
              exact ⟨hd2, hup⟩
        · rw [ip url]
          by_cases hup : url = p.1
          · subst hup
            rw [if_neg (fun h => ((htr p.1).mp h).2 rfl), fp p.1, if_pos rfl,
              if_pos hevp]
          · by_cases he : evictedIn (p :: l) acc.1 url
            · rw [if_pos ((htr url).mpr ⟨he, hup⟩), if_pos he]
            · rw [if_neg (fun h => he ((htr url).mp h).1), fp url,
                if_neg hup, if_neg he]
        · refine ⟨(discardTexImage2D acc.1 p.1).2.2 ++ extra, ?_, ?_, ?_⟩
          · rw [hev, List.append_assoc]
          · intro e he
            rcases List.mem_append.mp he with h | h
            · exact discardTexImage2D_evs_shape acc.1 p.1 e h
            · exact hsh e h
          · intro url
            rw [List.mem_append, hdm url, discarded_mem_discardTexImage2D,
              htr url]
            by_cases hup : url = p.1
            · subst hup
              simp [hdes, hevp]
            · simp [hup]
      · -- stale but no longer desired: the inner discard is a no-op
        have hstep : ((discardTexImage2D acc.1 p.1).1,
            acc.2 ++ (discardTexImage2D acc.1 p.1).2.2) = acc := by
          rw [discardTexImage2D_not_desired acc.1 p.1 hdes]
          simp
        rw [hstep]
        obtain ⟨ic, id2, ip, extra, hev, hsh, hdm⟩ :=
          ih acc hnd.2
            (fun q hq => hcon q (List.mem_cons.mpr (Or.inr hq)))
        have htr : ∀ url, evictedIn l acc.1 url ↔
            evictedIn (p :: l) acc.1 url := by
          intro url
          rw [evictedIn_cons]
          constructor
          · exact fun h => Or.inr h
          · rintro (⟨hd2, h1, _⟩ | h)
            · exact absurd (h1.symm ▸ hd2) hdes
            · exact h
        exact ⟨fun url => by rw [ic url]; simp only [htr url],
          fun url => by rw [id2 url]; simp only [htr url],
          fun url => by rw [ip url]; simp only [htr url],
          ⟨extra, hev, hsh, fun url => by rw [hdm url, htr url]⟩⟩
    · rw [if_neg hlt]
      obtain ⟨ic, id2, ip, extra, hev, hsh, hdm⟩ :=
        ih acc hnd.2 (fun q hq => hcon q (List.mem_cons.mpr (Or.inr hq)))
      have htr : ∀ url, evictedIn l acc.1 url ↔
          evictedIn (p :: l) acc.1 url := by
        intro url
        rw [evictedIn_cons]
        constructor
        · exact fun h => Or.inr h
        · rintro (⟨_, h1, h2⟩ | h)
          · exact absurd h2 hlt
          · exact h
      exact ⟨fun url => by rw [ic url]; simp only [htr url],
        fun url => by rw [id2 url]; simp only [htr url],
        fun url => by rw [ip url]; simp only [htr url],
        ⟨extra, hev, hsh, fun url => by rw [hdm url, htr url]⟩⟩

/-! ### Characterization of the usage-stamping pass -/

theorem alookup_mem (m : List (Url × α)) (u : Url) (v : α)
    (h : alookup m u = some v) : (u, v) ∈ m := by
  induction m with
  | nil => cases h
  | cons p m ih =>
    rw [alookup_cons] at h
    by_cases hp : p.1 = u
    · rw [if_pos hp] at h
      injection h with h2
      refine List.mem_cons.mpr (Or.inl ?_)
      rw [← hp, ← h2]
    · rw [if_neg hp] at h
      exact List.mem_cons.mpr (Or.inr (ih h))

theorem alookup_stampUrl (s : CState) (v url : Url) :
    alookup (stampUrl s v).layerImageCache url =
      if url = v then
        (alookup s.layerImageCache v).map
          (fun li => { li with renderId := s.renderId })
      else alookup s.layerImageCache url := by
  unfold stampUrl
  rcases h : alookup s.layerImageCache v with _ | li
  · by_cases huv : url = v
    · subst huv
      rw [if_pos rfl, h]
      rfl
    · rw [if_neg huv]
  · by_cases huv : url = v
    · subst huv
      rw [alookup_aset, if_pos rfl, if_pos rfl]
      rfl
    · rw [alookup_aset, if_neg huv, if_neg huv]

theorem stampLayer_renderId (s : CState) (l : Layer) :
    (stampLayer s l).renderId = s.renderId :=
  (nonResident_eq_fields _ _ (stampLayer_nonResident s l)).2.2.2.2.2.2.1

theorem stampUrl_renderId (s : CState) (v : Url) :
    (stampUrl s v).renderId = s.renderId :=
  (nonResident_eq_fields _ _ (stampUrl_nonResident s v)).2.2.2.2.2.2.1

theorem map_stamp_idem (o : Option LayerImage) (r : Int) :
    ((o.map (fun li => { li with renderId := r })).map
      (fun li => { li with renderId := r })) =
    o.map (fun li => { li with renderId := r }) := by
  rcases o with _ | li <;> rfl

theorem alookup_stampLayer (s : CState) (l : Layer) (url : Url) :
    alookup (stampLayer s l).layerImageCache url =
      if layerRefs l url then
        (alookup s.layerImageCache url).map
          (fun li => { li with renderId := s.renderId })
      else alookup s.layerImageCache url := by
  rcases hm : l.mask with _ | m
  · have hsl : stampLayer s l = stampUrl s l.url := by
      unfold stampLayer
      rw [hm]
    have hlr : layerRefs l url = decide (l.url = url) := by
      simp [layerRefs, hm]
    rw [hsl, alookup_stampUrl, hlr]
    by_cases h1 : url = l.url
    · have hd1 : decide (l.url = url) = true := decide_eq_true h1.symm
      rw [if_pos h1, hd1, if_pos rfl, h1]
    · have hd1 : decide (l.url = url) = false :=
        decide_eq_false (fun hh => h1 hh.symm)
      rw [if_neg h1, hd1, if_neg Bool.false_ne_true]
  · have hsl : stampLayer s l = stampUrl (stampUrl s l.url) m.url := by
      unfold stampLayer
      rw [hm]
    have hlr : layerRefs l url =
        (decide (l.url = url) || decide (m.url = url)) := by
      simp [layerRefs, hm]
    rw [hsl, alookup_stampUrl, stampUrl_renderId, hlr]
    by_cases h2 : url = m.url
    · have hd2 : decide (m.url = url) = true := decide_eq_true h2.symm
      rw [if_pos h2, alookup_stampUrl, hd2, Bool.or_true, if_pos rfl]
      by_cases h3 : m.url = l.url
      · rw [if_pos h3, map_stamp_idem, h2, h3]
      · rw [if_neg h3, h2]
    · have hd2 : decide (m.url = url) = false :=
        decide_eq_false (fun hh => h2 hh.symm)
      rw [if_neg h2, alookup_stampUrl, hd2, Bool.or_false]
      by_cases h1 : url = l.url
      · have hd1 : decide (l.url = url) = true := decide_eq_true h1.symm
        rw [if_pos h1, hd1, if_pos rfl, h1]
      · have hd1 : decide (l.url = url) = false :=
          decide_eq_false (fun hh => h1 hh.symm)
        rw [if_neg h1, hd1, if_neg Bool.false_ne_true]

theorem alookup_stampFold (ls : List Layer) (s : CState) (url : Url) :
    alookup (ls.foldl stampLayer s).layerImageCache url =
      if referencedBy ls url then
        (alookup s.layerImageCache url).map
          (fun li => { li with renderId := s.renderId })
      else alookup s.layerImageCache url := by
  induction ls generalizing s with
  | nil =>
    rw [if_neg]
    · rfl
    · intro h
      simp [referencedBy] at h
  | cons l ls ih =>
    rw [List.foldl_cons, ih (stampLayer s l), stampLayer_renderId,
      alookup_stampLayer]
    have hrefc : referencedBy (l :: ls) url =
        (layerRefs l url || referencedBy ls url) := by
      simp [referencedBy]
    rw [hrefc]
    by_cases b2 : referencedBy ls url
    · rw [if_pos b2]
      by_cases b1 : layerRefs l url
      · rw [if_pos b1, map_stamp_idem, if_pos (by simp [b1, b2])]
      · rw [if_neg b1, if_pos (by simp [b2])]
    · rw [if_neg b2]
      by_cases b1 : layerRefs l url
      · rw [if_pos b1, if_pos (by simp [b1])]
      · rw [if_neg b1, if_neg (by simp [b1, b2])]

/-- Lookup through the whole usage-stamping pass: layer images and mask
images referenced by the current stack get the current render id, nothing
else changes. -/
theorem alookup_stampAll (s : CState) (url : Url) :
    alookup (stampAll s).layerImageCache url =
      if referencedBy s.layers url then
        (alookup s.layerImageCache url).map
          (fun li => { li with renderId := s.renderId })
      else alookup s.layerImageCache url :=
  alookup_stampFold s.layers s url

theorem stampUrl_nodup (s : CState) (v : Url)
    (hnd : (s.layerImageCache.map (fun p => p.1)).Nodup) :
    ((stampUrl s v).layerImageCache.map (fun p => p.1)).Nodup := by
  unfold stampUrl
  split
  · exact nodup_keys_aset _ _ _ hnd
  · exact hnd

theorem stampLayer_nodup (s : CState) (l : Layer)
    (hnd : (s.layerImageCache.map (fun p => p.1)).Nodup) :
    ((stampLayer s l).layerImageCache.map (fun p => p.1)).Nodup := by
  unfold stampLayer
  split
  · exact stampUrl_nodup _ _ (stampUrl_nodup _ _ hnd)
  · exact stampUrl_nodup _ _ hnd

theorem stampFold_nodup (ls : List Layer) (s : CState)
    (hnd : (s.layerImageCache.map (fun p => p.1)).Nodup) :
    (((ls.foldl stampLayer s).layerImageCache.map (fun p => p.1))).Nodup := by
  induction ls generalizing s with
  | nil => exact hnd
  | cons l ls ih =>
    rw [List.foldl_cons]
    exact ih (stampLayer s l) (stampLayer_nodup s l hnd)

theorem stampAll_nodup (s : CState)
    (hnd : (s.layerImageCache.map (fun p => p.1)).Nodup) :
    ((stampAll s).layerImageCache.map (fun p => p.1)).Nodup :=
  stampFold_nodup s.layers s hnd

/-- The recomposition body when it fires. -/
theorem renderLayersAfterUpdate_recompose (s : CState)
    (wfb rfb watt ratt : Nat)
    (hv : ¬ s.offlineLayerVersion ≥ s.layerVersion)
    (hw : s.offscreenWriteFramebuffer = some wfb)
    (hr : s.offscreenReadFramebuffer = some rfb)
    (hwa : s.offscreenWriteColorAttachment = some watt)
    (hra : s.offscreenReadColorAttachment = some ratt) :
    renderLayersAfterUpdate s =
      ({ stampAll { s with offlineLayerVersion := s.layerVersion } with
          offscreenWriteLog := s.offscreenWriteLog ++
            [Ev.offscreenClear wfb] ++
            (drawsFrom wfb rfb watt 0 s.layers).filter isBlendDraw ++
            [Ev.generateMipmaps watt]
          offscreenReadLog := s.offscreenReadLog ++
            [Ev.offscreenClear rfb] ++
            (drawsFrom wfb rfb watt 0 s.layers).filter isCopyDraw },
        [Ev.offscreenClear wfb, Ev.offscreenClear rfb] ++
          drawsFrom wfb rfb watt 0 s.layers ++ [Ev.generateMipmaps watt]) := by
  unfold renderLayersAfterUpdate
  rw [if_neg hv, hw, hr, hwa, hra]

/-- With the attachment present and auto-discard enabled, the final state
of render is the auto-discard sweep of the recomposed state. -/
theorem renderAfterCompose_discard_state (r : CState × List Ev) (att : Nat)
    (hatt : r.1.offscreenWriteColorAttachment = some att)
    (hauto : r.1.autoDiscard = true) :
    (renderAfterCompose r).1 = (autoDiscardPass r.1).1 := by
  simp [renderAfterCompose, hatt, hauto]

/-- The eviction condition through the lookup function, given unique
keys. -/
theorem evictedIn_lookup (l : List (Url × LayerImage)) (s : CState)
    (url : Url) (hnd : (l.map (fun p => p.1)).Nodup) :
    evictedIn l s url ↔ url ∈ s.desiredImages ∧
      ∃ li, alookup l url = some li ∧ li.renderId < s.renderId := by
  unfold evictedIn
  constructor
  · rintro ⟨hd, p, hp, hp1, hp2⟩
    refine ⟨hd, p.2, ?_, hp2⟩
    rw [← hp1]
    exact alookup_eq_of_mem l p.1 p.2 hnd hp
  · rintro ⟨hd, li, hl, hlt⟩
    exact ⟨hd, (url, li), alookup_mem _ _ _ hl, rfl, hlt⟩

/-- Characterization of the whole auto-discard sweep of render() on a
state with unique resident keys. -/
theorem autoDiscardPass_char (s : CState)
    (hnd : (s.layerImageCache.map (fun p => p.1)).Nodup) :
    (∀ url, alookup (autoDiscardPass s).1.layerImageCache url =
        if evicted s url then none else alookup s.layerImageCache url) ∧
    (∀ url, url ∈ (autoDiscardPass s).1.desiredImages ↔
        (url ∈ s.desiredImages ∧ ¬ evicted s url)) ∧
    (∀ url, (autoDiscardPass s).1.texImage2DPromiseCache url =
        if evicted s url then none else s.texImage2DPromiseCache url) ∧
    (∀ e ∈ (autoDiscardPass s).2,
        (∃ u, e = Ev.discarded u) ∨ ∃ img, e = Ev.released img) ∧
    (∀ url, Ev.discarded url ∈ (autoDiscardPass s).2 ↔ evicted s url) := by
  obtain ⟨ic, id2, ip, extra, hev, hsh, hdm⟩ :=
    autoDiscardFold_char s.layerImageCache (s, []) hnd
      (fun p hp => alookup_eq_of_mem _ _ _ hnd hp)
  have h2 : (autoDiscardPass s).2 = extra := hev.trans (List.nil_append extra)
  refine ⟨ic, id2, ip, fun e he => hsh e ?_, fun url => ?_⟩
  · rw [h2] at he
    exact he
  · rw [h2]
    exact hdm url

/-- Witness for C9 at a concrete out-of-domain mask coordinate. -/
theorem c9_mask_out_of_domain_witness :
    fragmentMain (fun _ => vzero) (fun _ => { r := 1, g := 0, b := 0, a := 1 })
      (fun _ => { r := 1, g := 1, b := 1, a := 1 }) 1 2 0 (1 / 2) 1
      (fun c => c.a) (fun c _ => c) (0, 0) (0, 0) (2, 0) =
    fragmentMain (fun _ => vzero) (fun _ => { r := 1, g := 0, b := 0, a := 1 })
      (fun _ => vzero) 1 2 0 (1 / 2) 1
      (fun c => c.a) (fun c _ => c) (0, 0) (0, 0) (2, 0) :=
  c9_mask_out_of_domain _ _ _ _ _ _ _ _ _ _ _ _ _ (by norm_num)

/-- C6 (amended): eviction by age.  With autoDiscard enabled, at the end
of render() exactly those images remain resident that were resident
before, the render actually recomposed (layer version newer than the one
last rendered), and are referenced by the current layer stack (including
mask images); every survivor carries the new render id, and every resident
image whose recorded render id is below the current one is discarded.  In
particular, when recomposition is skipped because the layer version is
unchanged, every resident image is discarded, including images referenced
by the current stack.  The hypotheses are invariants of every reachable
state: unique resident keys, resident urls desired, recorded render ids at
most the current one, and attachments missing only when their
framebuffers are. -/
theorem c6_eviction_amended (s : CState)
    (hnd : (s.layerImageCache.map (fun p => p.1)).Nodup)
    (hdes : ∀ p ∈ s.layerImageCache, p.1 ∈ s.desiredImages)
    (hrid : ∀ p ∈ s.layerImageCache, p.2.renderId ≤ s.renderId)
    (hauto : s.autoDiscard = true)
    (hcow : s.offscreenWriteColorAttachment = none →
      s.offscreenWriteFramebuffer = none)
    (hcor : s.offscreenReadColorAttachment = none →
      s.offscreenReadFramebuffer = none) :
    (∀ url, (alookup (render s).1.layerImageCache url).isSome =
      ((alookup s.layerImageCache url).isSome &&
        decide (s.offlineLayerVersion < s.layerVersion) &&
        referencedBy s.layers url)) ∧
    (∀ url li, alookup (render s).1.layerImageCache url = some li →
      li.renderId = s.renderId + 1) := by
  have hws : (updateOffscreen { s with renderId := s.renderId + 1
      }).offscreenWriteColorAttachment.isSome :=
    updateOffscreen_watt_some _ hcow
  have hrs : (updateOffscreen { s with renderId := s.renderId + 1
      }).offscreenReadColorAttachment.isSome :=
    updateOffscreen_ratt_some _ hcor
  have hwf := updateOffscreen_fb_some { s with renderId := s.renderId + 1 }
  obtain ⟨u1, u2, u3, u4, u5, u6, u7, u8, u9, u10⟩ :=
    updateOffscreen_keeps { s with renderId := s.renderId + 1 }
  have hsu_des : (updateOffscreen { s with renderId := s.renderId + 1
      }).desiredImages = s.desiredImages := u1
  have hsu_cache : (updateOffscreen { s with renderId := s.renderId + 1
      }).layerImageCache = s.layerImageCache := u2
  have hsu_auto : (updateOffscreen { s with renderId := s.renderId + 1
      }).autoDiscard = s.autoDiscard := u5
  have hsu_rid : (updateOffscreen { s with renderId := s.renderId + 1
      }).renderId = s.renderId + 1 := u6
  have hsu_layers : (updateOffscreen { s with renderId := s.renderId + 1
      }).layers = s.layers := u8
  have hsu_ver : (updateOffscreen { s with renderId := s.renderId + 1
      }).layerVersion = s.layerVersion := u9
  have hsu_off : (updateOffscreen { s with renderId := s.renderId + 1
      }).offlineLayerVersion = s.offlineLayerVersion := u10
  obtain ⟨r1, r2, r3, r4, r5, r6, r7, r8, r9, r10, r11, r12, r13⟩ :=
    renderLayersAfterUpdate_keeps
      (updateOffscreen { s with renderId := s.renderId + 1 })
  obtain ⟨att, hatt⟩ := Option.isSome_iff_exists.mp hws
  set RL : CState := (renderLayersAfterUpdate (updateOffscreen
    { s with renderId := s.renderId + 1 })).1 with hRLdef
  have hatt2 : RL.offscreenWriteColorAttachment = some att := r11.trans hatt
  have hauto2 : RL.autoDiscard = true := r4.trans (hsu_auto.trans hauto)
  have hfinal : (render s).1 = (autoDiscardPass RL).1 :=
    renderAfterCompose_discard_state
      (renderLayersAfterUpdate (updateOffscreen
        { s with renderId := s.renderId + 1 })) att hatt2 hauto2
  have hrid2 : RL.renderId = s.renderId + 1 := r5.trans hsu_rid
  have hdes2 : RL.desiredImages = s.desiredImages := r1.trans hsu_des
  by_cases hge0 : s.offlineLayerVersion ≥ s.layerVersion
  · -- the layer version is unchanged: recomposition skipped
    have hskip : renderLayersAfterUpdate (updateOffscreen
        { s with renderId := s.renderId + 1 }) =
        (updateOffscreen { s with renderId := s.renderId + 1 }, []) :=
      renderLayersAfterUpdate_skip _ (by rw [hsu_off, hsu_ver]; exact hge0)
    have hcache : ∀ url, alookup RL.layerImageCache url =
        alookup s.layerImageCache url := by
      intro url
      rw [hRLdef, hskip]
      rw [show (updateOffscreen { s with renderId := s.renderId + 1 },
        ([] : List Ev)).1.layerImageCache = s.layerImageCache from hsu_cache]
    have hnd2 : (RL.layerImageCache.map (fun p => p.1)).Nodup := by
      rw [hRLdef, hskip]
      rw [show (updateOffscreen { s with renderId := s.renderId + 1 },
        ([] : List Ev)).1.layerImageCache = s.layerImageCache from hsu_cache]
      exact hnd
    obtain ⟨pc, pd, pp, pe, pm⟩ := autoDiscardPass_char RL hnd2
    have hdec : decide (s.offlineLayerVersion < s.layerVersion) = false :=
      decide_eq_false (not_lt.mpr hge0)
    have hforall : ∀ url,
        (alookup (render s).1.layerImageCache url).isSome = false := by
      intro url
      rw [hfinal, pc url]
      rcases hlo : alookup s.layerImageCache url with _ | li
      · by_cases hev : evicted RL url
        · rw [if_pos hev]
          rfl
        · rw [if_neg hev, hcache url, hlo]
          rfl
      · have hev : evicted RL url := by
          show evictedIn RL.layerImageCache RL url
          rw [evictedIn_lookup _ _ _ hnd2]
          refine ⟨?_, li, ?_, ?_⟩
          · rw [hdes2]
            exact hdes (url, li) (alookup_mem _ _ _ hlo)
          · rw [hcache url]
            exact hlo
          · have h3 : li.renderId ≤ s.renderId :=
              hrid (url, li) (alookup_mem _ _ _ hlo)
            rw [hrid2]
            omega
        rw [if_pos hev]
        rfl
    constructor
    · intro url
      rw [hforall url, hdec, Bool.and_false, Bool.false_and]
    · intro url li hsome
      have h2 := hforall url
      rw [hsome] at h2
      simp at h2
  · -- the layer version is newer: recomposition fires
    obtain ⟨wfb, hwfb⟩ := Option.isSome_iff_exists.mp hwf.1
    obtain ⟨rfb, hrfb⟩ := Option.isSome_iff_exists.mp hwf.2
    obtain ⟨ratt, hratt⟩ := Option.isSome_iff_exists.mp hrs
    have hrec := renderLayersAfterUpdate_recompose
      (updateOffscreen { s with renderId := s.renderId + 1 })
      wfb rfb att ratt (by rw [hsu_off, hsu_ver]; exact hge0)
      hwfb hrfb hatt hratt
    have hX1 : ({ updateOffscreen { s with renderId := s.renderId + 1 } with
        offlineLayerVersion := (updateOffscreen
          { s with renderId := s.renderId + 1 }).layerVersion
        } : CState).layers = s.layers := hsu_layers
    have hX2 : ({ updateOffscreen { s with renderId := s.renderId + 1 } with
        offlineLayerVersion := (updateOffscreen
          { s with renderId := s.renderId + 1 }).layerVersion
        } : CState).renderId = s.renderId + 1 := hsu_rid
    have hX3 : ({ updateOffscreen { s with renderId := s.renderId + 1 } with
        offlineLayerVersion := (updateOffscreen
          { s with renderId := s.renderId + 1 }).layerVersion
        } : CState).layerImageCache = s.layerImageCache := hsu_cache
    have hcache : ∀ url, alookup RL.layerImageCache url =
        if referencedBy s.layers url then
          (alookup s.layerImageCache url).map
            (fun li => { li with renderId := s.renderId + 1 })
        else alookup s.layerImageCache url := by
      intro url
      rw [hRLdef, hrec]
      show alookup (stampAll
        { updateOffscreen { s with renderId := s.renderId + 1 } with
          offlineLayerVersion := (updateOffscreen
            { s with renderId := s.renderId + 1 }).layerVersion
          }).layerImageCache url = _
      rw [alookup_stampAll, hX1, hX2, hX3]
    have hnd2 : (RL.layerImageCache.map (fun p => p.1)).Nodup := by
      rw [hRLdef, hrec]
      show ((stampAll
        { updateOffscreen { s with renderId := s.renderId + 1 } with
          offlineLayerVersion := (updateOffscreen
            { s with renderId := s.renderId + 1 }).layerVersion
          }).layerImageCache.map (fun p => p.1)).Nodup
      apply stampAll_nodup
      rw [hX3]
      exact hnd
    obtain ⟨pc, pd, pp, pe, pm⟩ := autoDiscardPass_char RL hnd2
    have hdec : decide (s.offlineLayerVersion < s.layerVersion) = true :=
      decide_eq_true (not_le.mp hge0)
    constructor
    · intro url
      rw [hfinal, pc url, hdec, Bool.and_true]
      by_cases href : referencedBy s.layers url
      · rcases hlo : alookup s.layerImageCache url with _ | li
        · have hnev : ¬ evicted RL url := by
            intro hev
            obtain ⟨_, li2, hl2, _⟩ := (evictedIn_lookup _ _ _ hnd2).mp hev
            rw [hcache url, if_pos href, hlo] at hl2
            cases hl2
          rw [if_neg hnev, hcache url, if_pos href, hlo]
          simp
        · have hnev : ¬ evicted RL url := by
            intro hev
            obtain ⟨_, li2, hl2, hlt2⟩ := (evictedIn_lookup _ _ _ hnd2).mp hev
            rw [hcache url, if_pos href, hlo] at hl2
            injection hl2 with hl3
            rw [← hl3] at hlt2
            rw [hrid2] at hlt2
            simp at hlt2
          rw [if_neg hnev, hcache url, if_pos href, hlo]
          simp [href]
      · have hrf : referencedBy s.layers url = false :=
          Bool.eq_false_iff.mpr href
        rcases hlo : alookup s.layerImageCache url with _ | li
        · have hnev : ¬ evicted RL url := by
            intro hev
            obtain ⟨_, li2, hl2, _⟩ := (evictedIn_lookup _ _ _ hnd2).mp hev
            rw [hcache url, if_neg href, hlo] at hl2
            cases hl2
          rw [if_neg hnev, hcache url, if_neg href, hlo]
          simp
        · have hev : evicted RL url := by
            show evictedIn RL.layerImageCache RL url
            rw [evictedIn_lookup _ _ _ hnd2]
            refine ⟨?_, li, ?_, ?_⟩
            · rw [hdes2]
              exact hdes (url, li) (alookup_mem _ _ _ hlo)
            · rw [hcache url, if_neg href]
              exact hlo
            · have h3 : li.renderId ≤ s.renderId :=
                hrid (url, li) (alookup_mem _ _ _ hlo)
              rw [hrid2]
              omega
          rw [if_pos hev, hrf, Bool.and_false]
          rfl
    · intro url li hsome
      rw [hfinal, pc url] at hsome
      by_cases hev : evicted RL url
      · rw [if_pos hev] at hsome
        cases hsome
      · rw [if_neg hev, hcache url] at hsome
        by_cases href : referencedBy s.layers url
        · rw [if_pos href] at hsome
          rcases hlo : alookup s.layerImageCache url with _ | li0
          · rw [hlo] at hsome
            cases hsome
          · rw [hlo] at hsome
            injection hsome with h2
            rw [← h2]
        · rw [if_neg href] at hsome
          have hev2 : evicted RL url := by
            show evictedIn RL.layerImageCache RL url
            rw [evictedIn_lookup _ _ _ hnd2]
            refine ⟨?_, li, ?_, ?_⟩
            · rw [hdes2]
              exact hdes (url, li) (alookup_mem _ _ _ hsome)
            · rw [hcache url, if_neg href]
              exact hsome
            · have h3 : li.renderId ≤ s.renderId :=
                hrid (url, li) (alookup_mem _ _ _ hsome)
              rw [hrid2]
              omega
          exact absurd hev2 hev

/-- Witness for c6_eviction_amended at the initial state with autoDiscard
enabled: its hypotheses hold there and the theorem applies. -/
theorem c6_eviction_amended_witness :
    (∀ url, (alookup (render { initialState with autoDiscard := true
        }).1.layerImageCache url).isSome =
      ((alookup ({ initialState with autoDiscard := true
          } : CState).layerImageCache url).isSome &&
        decide (({ initialState with autoDiscard := true
          } : CState).offlineLayerVersion <
          ({ initialState with autoDiscard := true } : CState).layerVersion) &&
        referencedBy ({ initialState with autoDiscard := true
          } : CState).layers url)) ∧
    (∀ url li, alookup (render { initialState with autoDiscard := true
        }).1.layerImageCache url = some li →
      li.renderId = ({ initialState with autoDiscard := true
        } : CState).renderId + 1) :=
  c6_eviction_amended { initialState with autoDiscard := true }
    (by decide) (by decide) (by decide) rfl (fun _ => rfl) (fun _ => rfl)

/-- C6 counterexample: the retention half of the claim fails.  In the trace
below, the image with url a is loaded, the layer stack referencing a is
installed, and the stack is rendered twice with autoDiscard enabled.  The
second render finds the layer version unchanged, skips recomposition, and
therefore never stamps the resident render ids; its eviction pass then
discards the a image (resident right after the first render) even though
the current layer stack references it. -/
theorem c6_eviction_counterexample :
    referencedBy (run [Op.setAutoDiscard true, Op.load "a" (some 5),
      Op.setLayers [layerA], Op.render, Op.render]).1.layers "a" = true ∧
    (alookup (run [Op.setAutoDiscard true, Op.load "a" (some 5),
      Op.setLayers [layerA], Op.render]).1.layerImageCache "a").isSome =
      true ∧
    alookup (run [Op.setAutoDiscard true, Op.load "a" (some 5),
      Op.setLayers [layerA], Op.render, Op.render]).1.layerImageCache "a" =
      none := by
  refine ⟨by decide, by decide, by decide⟩

/-- Folding the resident automaton over events that are neither successful
load completions nor discards changes nothing. -/
theorem foldl_resident_of_neutral (url : Url) :
    ∀ (evs : List Ev) (b : Bool),
      (∀ e ∈ evs, ∀ (u : Url) (b2 : Bool), residentFoldStep u b2 e = b2) →
      evs.foldl (residentFoldStep url) b = b
  | [], _, _ => rfl
  | e :: evs, b, h => by
    rw [List.foldl_cons, h e (List.mem_cons_self e evs) url b]
    exact foldl_resident_of_neutral url evs b
      (fun e2 he2 u b2 => h e2 (List.mem_cons.mpr (Or.inr he2)) u b2)

/-- Folding the resident automaton over a list of discard and release
events leaves false exactly when the url was discarded in it. -/
theorem foldl_resident_of_discardOnly (url : Url) :
    ∀ (evs : List Ev) (b : Bool),
      (∀ e ∈ evs,
        (∃ u, e = Ev.discarded u) ∨ ∃ img, e = Ev.released img) →
      evs.foldl (residentFoldStep url) b =
        if Ev.discarded url ∈ evs then false else b
  | [], b, _ => by simp
  | e :: evs, b, h => by
    rw [List.foldl_cons, foldl_resident_of_discardOnly url evs _
      (fun e2 he2 => h e2 (List.mem_cons.mpr (Or.inr he2)))]
    rcases h e (List.mem_cons_self e evs) with ⟨u, rfl⟩ | ⟨img, rfl⟩
    · by_cases hu : u = url
      · subst hu
        simp [residentFoldStep]
      · have h1 : residentFoldStep url b (Ev.discarded u) = b := by
          simp [residentFoldStep, hu]
        have h2 : ¬ (Ev.discarded url = Ev.discarded u) := by
          intro hh
          injection hh with h3
          exact hu h3.symm
        rw [h1]
        by_cases hm : Ev.discarded url ∈ evs
        · rw [if_pos hm, if_pos (List.mem_cons.mpr (Or.inr hm))]
        · rw [if_neg hm, if_neg (fun hc => hm
            ((List.mem_cons.mp hc).resolve_left h2))]
    · have h1 : residentFoldStep url b (Ev.released img) = b := rfl
      have h2 : ¬ (Ev.discarded url = Ev.released img) := fun hh =>
        Ev.noConfusion hh
      rw [h1]
      by_cases hm : Ev.discarded url ∈ evs
      · rw [if_pos hm, if_pos (List.mem_cons.mpr (Or.inr hm))]
      · rw [if_neg hm, if_neg (fun hc => hm
          ((List.mem_cons.mp hc).resolve_left h2))]

/-- Copy and blend draws do not move the resident automaton. -/
theorem drawsFrom_resident_neutral (wfb rfb watt : Nat) :
    ∀ (i : Nat) (ls : List Layer) (e : Ev),
      e ∈ drawsFrom wfb rfb watt i ls →
      ∀ (u : Url) (b : Bool), residentFoldStep u b e = b
  | _, [], e, he => absurd he (List.not_mem_nil e)
  | i, l :: ls, e, he => by
    simp only [drawsFrom] at he
    rcases List.mem_append.mp he with h | h
    · intro u b
      unfold layerDrawEvents at h
      rcases List.mem_append.mp h with h2 | h2
      · split at h2
        · cases h2
        · rw [List.mem_singleton] at h2
          subst h2
          rfl
      · rw [List.mem_singleton] at h2
        subst h2
        rfl
    · exact drawsFrom_resident_neutral wfb rfb watt (i + 1) ls e h

/-- The recomposition body emits only clears, draws and mipmap
regenerations, none of which move the resident automaton. -/
theorem renderLayersAfterUpdate_evs_neutral (s : CState) (e : Ev)
    (he : e ∈ (renderLayersAfterUpdate s).2) (u : Url) (b : Bool) :
    residentFoldStep u b e = b := by
  unfold renderLayersAfterUpdate at he
  split at he
  · cases he
  · split at he
    · rcases List.mem_append.mp he with h | h
      · rcases List.mem_cons.mp h with rfl | h2
        · rfl
        · rcases List.mem_cons.mp h2 with rfl | h3
          · rfl
          · exact drawsFrom_resident_neutral _ _ _ _ _ e h3 u b
      · rw [List.mem_singleton] at h
        subst h
        rfl
    · cases he

/-- The recomposition body preserves residency of every url (stamping
only rewrites render ids in place). -/
theorem renderLayersAfterUpdate_cache_isSome (s : CState) (url : Url) :
    (alookup (renderLayersAfterUpdate s).1.layerImageCache url).isSome =
      (alookup s.layerImageCache url).isSome := by
  unfold renderLayersAfterUpdate
  split
  · rfl
  · split
    · show (alookup (stampAll
        { s with offlineLayerVersion := s.layerVersion
        }).layerImageCache url).isSome = _
      rw [alookup_stampAll]
      split
      · cases alookup
          ({ s with offlineLayerVersion := s.layerVersion
            } : CState).layerImageCache url <;> rfl
      · rfl
    · rfl

/-- The recomposition body preserves uniqueness of the resident keys. -/
theorem renderLayersAfterUpdate_cache_nodup (s : CState)
    (hnd : (s.layerImageCache.map (fun p => p.1)).Nodup) :
    ((renderLayersAfterUpdate s).1.layerImageCache.map
      (fun p => p.1)).Nodup := by
  unfold renderLayersAfterUpdate
  split
  · exact hnd
  · split
    · exact stampAll_nodup _ hnd
    · exact hnd

/-- One auto-discard iteration only removes resident entries. -/
theorem autoDiscardStep_cache_sublist (acc : CState × List Ev)
    (p : Url × LayerImage) :
    (autoDiscardStep acc p).1.layerImageCache.Sublist
      acc.1.layerImageCache := by
  unfold autoDiscardStep
  split
  · exact List.Sublist.refl _
  · split
    · by_cases hd : p.1 ∈ acc.1.desiredImages
      · rw [discardTexImage2D_desired acc.1 p.1 hd]
        exact aerase_sublist _ _
      · rw [discardTexImage2D_not_desired acc.1 p.1 hd]
    · exact List.Sublist.refl _

/-- The auto-discard fold only removes resident entries. -/
theorem autoDiscardFold_cache_sublist :
    ∀ (l : List (Url × LayerImage)) (acc : CState × List Ev),
      ((l.foldl autoDiscardStep acc).1.layerImageCache).Sublist
        acc.1.layerImageCache
  | [], _ => List.Sublist.refl _
  | p :: l, acc => by
    rw [List.foldl_cons]
    exact (autoDiscardFold_cache_sublist l (autoDiscardStep acc p)).trans
      (autoDiscardStep_cache_sublist acc p)

/-- The auto-discard sweep only removes resident entries. -/
theorem autoDiscardPass_cache_sublist (s : CState) :
    ((autoDiscardPass s).1.layerImageCache).Sublist s.layerImageCache :=
  autoDiscardFold_cache_sublist s.layerImageCache (s, [])

/-- updateOffscreen does not touch the task-id allocator. -/
theorem updateOffscreen_nextTask (s : CState) :
    (updateOffscreen s).nextTaskId = s.nextTaskId := by
  unfold updateOffscreen
  split <;> rfl

/-- The recomposition body does not touch the task-id allocator. -/
theorem renderLayersAfterUpdate_nextTask (s : CState) :
    (renderLayersAfterUpdate s).1.nextTaskId = s.nextTaskId := by
  unfold renderLayersAfterUpdate
  split
  · rfl
  · split
    · obtain ⟨k1, k2, k3, k4, k5, k6, k7, k8, k9, k10, k11, k12, k13, k14,
        k15, k16, k17, k18, k19, k20, k21, k22, k23, k24⟩ :=
        nonResident_eq_fields _ _
          (stampAll_nonResident { s with offlineLayerVersion := s.layerVersion })
      exact k4
    · rfl

/-- render() moves residency exactly as the resident automaton reads its
event list: recomposition draws are neutral, and the auto-discard sweep
emits one discard event per evicted url. -/
theorem render_resident (s : CState)
    (hnd : (s.layerImageCache.map (fun p => p.1)).Nodup) (url : Url) :
    (alookup (render s).1.layerImageCache url).isSome =
      (render s).2.foldl (residentFoldStep url)
        ((alookup s.layerImageCache url).isSome) := by
  set su : CState := updateOffscreen { s with renderId := s.renderId + 1 }
    with hsu
  set rla := renderLayersAfterUpdate su with hrla
  have hsu_cache : su.layerImageCache = s.layerImageCache :=
    (updateOffscreen_keeps { s with renderId := s.renderId + 1 }).2.1
  have hnd_su : (su.layerImageCache.map (fun p => p.1)).Nodup := by
    rw [hsu_cache]
    exact hnd
  have hca : ∀ u2, (alookup rla.1.layerImageCache u2).isSome =
      (alookup s.layerImageCache u2).isSome := by
    intro u2
    rw [hrla, renderLayersAfterUpdate_cache_isSome su u2, hsu_cache]
  have hnd_rla : (rla.1.layerImageCache.map (fun p => p.1)).Nodup := by
    rw [hrla]
    exact renderLayersAfterUpdate_cache_nodup su hnd_su
  have hneut : ∀ e ∈ rla.2, ∀ (u : Url) (b : Bool),
      residentFoldStep u b e = b := by
    rw [hrla]
    exact fun e he u b => renderLayersAfterUpdate_evs_neutral su e he u b
  have hrender : render s = renderAfterCompose rla := rfl
  rw [hrender]
  rcases hatt : rla.1.offscreenWriteColorAttachment with _ | att
  · have hrc : renderAfterCompose rla = rla := by
      unfold renderAfterCompose
      rw [hatt]
    rw [hrc, foldl_resident_of_neutral url rla.2 _ hneut]
    exact hca url
  · rcases hauto : rla.1.autoDiscard with _ | _
    · have hrc : renderAfterCompose rla =
          (rla.1, rla.2 ++ [Ev.presentDraw (computePresent rla.1 att)]) := by
        unfold renderAfterCompose
        rw [hatt, hauto]
        rfl
      rw [hrc, List.foldl_append,
        foldl_resident_of_neutral url rla.2 _ hneut]
      exact hca url
    · obtain ⟨pc, pd, pp, psh, pdm⟩ := autoDiscardPass_char rla.1 hnd_rla
      have hrc : renderAfterCompose rla =
          ((autoDiscardPass rla.1).1,
            rla.2 ++ [Ev.presentDraw (computePresent rla.1 att)] ++
              (autoDiscardPass rla.1).2) := by
        unfold renderAfterCompose
        rw [hatt, hauto]
        rfl
      rw [hrc, List.foldl_append, List.foldl_append,
        foldl_resident_of_neutral url rla.2 _ hneut,
        foldl_resident_of_discardOnly url (autoDiscardPass rla.1).2 _ psh,
        pc url]
      by_cases hev : evicted rla.1 url
      · rw [if_pos hev, if_pos ((pdm url).mpr hev)]
        rfl
      · rw [if_neg hev, if_neg (fun hc => hev ((pdm url).mp hc))]
        exact hca url

/-- Every atomic operation moves residency exactly as the resident
automaton reads its emitted events. -/
theorem stepOp_resident (s : CState) (op : Op)
    (hnd : (s.layerImageCache.map (fun p => p.1)).Nodup) (url : Url) :
    (alookup (stepOp s op).1.layerImageCache url).isSome =
      (stepOp s op).2.foldl (residentFoldStep url)
        ((alookup s.layerImageCache url).isSome) := by
  cases op with
  | load u2 img =>
    show (alookup (loadTexImage2D s u2 img).1.layerImageCache url).isSome =
      (loadTexImage2D s u2 img).2.2.foldl (residentFoldStep url)
        ((alookup s.layerImageCache url).isSome)
    rcases hp : s.texImage2DPromiseCache u2 with _ | t
    · cases img with
      | none =>
        rw [loadTexImage2D_fresh_fetch s u2 hp]
        rfl
      | some i =>
        rw [loadTexImage2D_fresh_supplied s u2 i hp]
        show (alookup (aset s.layerImageCache u2
            { url := u2, texImage2D := s.nextTexId
              image := some (ImgHandle.supplied i), renderId := -1 })
            url).isSome = _
        rw [alookup_aset]
        by_cases hu : url = u2
        · subst hu
          simp [residentFoldStep]
        · have hu2 : ¬ (u2 = url) := fun hh => hu hh.symm
          rw [if_neg hu]
          simp [residentFoldStep, hu2]
    · rw [loadTexImage2D_pending s u2 img t hp]
      rfl
  | discard u2 =>
    show (alookup (discardTexImage2D s u2).1.layerImageCache url).isSome =
      (discardTexImage2D s u2).2.2.foldl (residentFoldStep url)
        ((alookup s.layerImageCache url).isSome)
    by_cases hd : u2 ∈ s.desiredImages
    · rw [discardTexImage2D_desired s u2 hd]
      show (alookup (aerase s.layerImageCache u2) url).isSome = _
      have htail : ∀ e ∈ (match alookup s.layerImageCache u2 with
          | some li =>
            (match li.image with
             | some img => [Ev.released img]
             | none => ([] : List Ev))
          | none => ([] : List Ev)),
          ∀ (u : Url) (b : Bool), residentFoldStep u b e = b := by
        rcases alookup s.layerImageCache u2 with _ | li
        · intro e he
          exact absurd he (List.not_mem_nil e)
        · obtain ⟨lu, lt, limg, lrid⟩ := li
          rcases limg with _ | img
          · intro e he
            have he2 : e ∈ ([] : List Ev) := he
            exact absurd he2 (List.not_mem_nil e)
          · intro e he
            have he2 : e ∈ [Ev.released img] := he
            rw [List.mem_singleton] at he2
            subst he2
            intro u b
            rfl
      rw [alookup_aerase, List.foldl_cons,
        foldl_resident_of_neutral url _ _ htail]
      by_cases hu : url = u2
      · subst hu
        simp [residentFoldStep]
      · have hu2 : ¬ (u2 = url) := fun hh => hu hh.symm
        rw [if_neg hu]
        simp [residentFoldStep, hu2]
    · rw [discardTexImage2D_not_desired s u2 hd]
      rfl
  | complete tid =>
    show (alookup (loadContinuation s tid).1.layerImageCache url).isSome =
      (loadContinuation s tid).2.foldl (residentFoldStep url)
        ((alookup s.layerImageCache url).isSome)
    rcases htk : s.tasks tid with _ | tk
    · rw [loadContinuation_none s tid htk]
      rfl
    · obtain ⟨u2, st⟩ := tk
      cases st with
      | fetching =>
        by_cases hd : u2 ∈ s.desiredImages
        · rw [loadContinuation_success s tid u2 htk hd]
          show (alookup (aset s.layerImageCache u2
              { url := u2, texImage2D := s.nextTexId
                image := some (ImgHandle.fetched tid), renderId := -1 })
              url).isSome = _
          rw [alookup_aset]
          by_cases hu : url = u2
          · subst hu
            simp [residentFoldStep]
          · have hu2 : ¬ (u2 = url) := fun hh => hu hh.symm
            rw [if_neg hu]
            simp [residentFoldStep, hu2]
        · rw [loadContinuation_cancel s tid u2 htk hd]
          rfl
      | settledTex tex =>
        rw [loadContinuation_settled s tid
          { url := u2, status := TaskStatus.settledTex tex } htk
          (fun hh => TaskStatus.noConfusion hh)]
        rfl
      | settledNull =>
        rw [loadContinuation_settled s tid
          { url := u2, status := TaskStatus.settledNull } htk
          (fun hh => TaskStatus.noConfusion hh)]
        rfl
  | render => exact render_resident s hnd url
  | setLayers ls => rfl
  | setAutoDiscard b2 => rfl

/-- Every atomic operation preserves the cache-map invariant. -/
theorem stepOp_inv (s : CState) (op : Op) (h : Inv s) :
    Inv (stepOp s op).1 := by
  obtain ⟨h1, h2, h3⟩ := h
  cases op with
  | load u2 img =>
    show Inv (loadTexImage2D s u2 img).1
    rcases hp : s.texImage2DPromiseCache u2 with _ | t0
    · cases img with
      | none =>
        rw [loadTexImage2D_fresh_fetch s u2 hp]
        refine ⟨h1, ?_, ?_⟩
        · intro u t ht
          have ht2 : (if u = u2 then some s.nextTaskId
              else s.texImage2DPromiseCache u) = some t := ht
          by_cases hu : u = u2
          · rw [if_pos hu] at ht2
            injection ht2 with ht3
            refine ⟨{ url := u2, status := TaskStatus.fetching }, ?_,
              hu.symm, fun hh => TaskStatus.noConfusion hh⟩
            show (if t = s.nextTaskId then
                some { url := u2, status := TaskStatus.fetching }
              else s.tasks t) =
              some { url := u2, status := TaskStatus.fetching }
            rw [if_pos ht3.symm]
          · rw [if_neg hu] at ht2
            obtain ⟨tk, htk, hurl, hst⟩ := h2 u t ht2
            have htlt : t < s.nextTaskId := by
              rcases Nat.lt_or_ge t s.nextTaskId with hlt | hge
              · exact hlt
              · rw [h3 t hge] at htk
                cases htk
            refine ⟨tk, ?_, hurl, hst⟩
            show (if t = s.nextTaskId then
                some { url := u2, status := TaskStatus.fetching }
              else s.tasks t) = some tk
            rw [if_neg (Nat.ne_of_lt htlt)]
            exact htk
        · intro t hge
          have hge2 : s.nextTaskId + 1 ≤ t := hge
          show (if t = s.nextTaskId then
              some { url := u2, status := TaskStatus.fetching }
            else s.tasks t) = none
          rw [if_neg (by omega : ¬ (t = s.nextTaskId))]
          exact h3 t (by omega)
      | some i =>
        rw [loadTexImage2D_fresh_supplied s u2 i hp]
        refine ⟨nodup_keys_aset _ _ _ h1, ?_, ?_⟩
        · intro u t ht
          have ht2 : (if u = u2 then some s.nextTaskId
              else s.texImage2DPromiseCache u) = some t := ht
          by_cases hu : u = u2
          · rw [if_pos hu] at ht2
            injection ht2 with ht3
            refine ⟨{ url := u2, status := TaskStatus.settledTex s.nextTexId }, ?_,
              hu.symm, fun hh => TaskStatus.noConfusion hh⟩
            show (if t = s.nextTaskId then
                some { url := u2, status := TaskStatus.settledTex s.nextTexId }
              else s.tasks t) =
              some { url := u2, status := TaskStatus.settledTex s.nextTexId }
            rw [if_pos ht3.symm]
          · rw [if_neg hu] at ht2
            obtain ⟨tk, htk, hurl, hst⟩ := h2 u t ht2
            have htlt : t < s.nextTaskId := by
              rcases Nat.lt_or_ge t s.nextTaskId with hlt | hge
              · exact hlt
              · rw [h3 t hge] at htk
                cases htk
            refine ⟨tk, ?_, hurl, hst⟩
            show (if t = s.nextTaskId then
                some { url := u2, status := TaskStatus.settledTex s.nextTexId }
              else s.tasks t) = some tk
            rw [if_neg (Nat.ne_of_lt htlt)]
            exact htk
        · intro t hge
          have hge2 : s.nextTaskId + 1 ≤ t := hge
          show (if t = s.nextTaskId then
              some { url := u2, status := TaskStatus.settledTex s.nextTexId }
            else s.tasks t) = none
          rw [if_neg (by omega : ¬ (t = s.nextTaskId))]
          exact h3 t (by omega)
    · rw [loadTexImage2D_pending s u2 img t0 hp]
      exact ⟨h1, h2, h3⟩
  | discard u2 =>
    show Inv (discardTexImage2D s u2).1
    by_cases hd : u2 ∈ s.desiredImages
    · rw [discardTexImage2D_desired s u2 hd]
      refine ⟨nodup_keys_aerase _ _ h1, ?_, h3⟩
      intro u t ht
      have ht2 : (if u = u2 then none
          else s.texImage2DPromiseCache u) = some t := ht
      by_cases hu : u = u2
      · rw [if_pos hu] at ht2
        cases ht2
      · rw [if_neg hu] at ht2
        exact h2 u t ht2
    · rw [discardTexImage2D_not_desired s u2 hd]
      exact ⟨h1, h2, h3⟩
  | complete tid =>
    show Inv (loadContinuation s tid).1
    rcases htk : s.tasks tid with _ | tk
    · rw [loadContinuation_none s tid htk]
      exact ⟨h1, h2, h3⟩
    · obtain ⟨u2, st⟩ := tk
      cases st with
      | fetching =>
        by_cases hd : u2 ∈ s.desiredImages
        · rw [loadContinuation_success s tid u2 htk hd]
          refine ⟨nodup_keys_aset _ _ _ h1, ?_, ?_⟩
          · intro u t ht
            have ht2 : s.texImage2DPromiseCache u = some t := ht
            obtain ⟨tk2, htk2, hurl2, hst2⟩ := h2 u t ht2
            by_cases he : t = tid
            · subst he
              rw [htk] at htk2
              injection htk2 with htk3
              rw [← htk3] at hurl2
              refine ⟨{ url := u2, status := TaskStatus.settledTex s.nextTexId }, ?_,
                hurl2, fun hh => TaskStatus.noConfusion hh⟩
              show (if t = t then
                  some { url := u2, status := TaskStatus.settledTex s.nextTexId }
                else s.tasks t) =
                some { url := u2, status := TaskStatus.settledTex s.nextTexId }
              rw [if_pos rfl]
            · refine ⟨tk2, ?_, hurl2, hst2⟩
              show (if t = tid then
                  some { url := u2, status := TaskStatus.settledTex s.nextTexId }
                else s.tasks t) = some tk2
              rw [if_neg he]
              exact htk2
          · intro t hge
            have hge2 : s.nextTaskId ≤ t := hge
            have htid : tid < s.nextTaskId := by
              rcases Nat.lt_or_ge tid s.nextTaskId with hlt | hge3
              · exact hlt
              · rw [h3 tid hge3] at htk
                cases htk
            show (if t = tid then
                some { url := u2, status := TaskStatus.settledTex s.nextTexId }
              else s.tasks t) = none
            rw [if_neg (by omega : ¬ (t = tid))]
            exact h3 t hge2
        · rw [loadContinuation_cancel s tid u2 htk hd]
          refine ⟨h1, ?_, ?_⟩
          · intro u t ht
            have ht2 : (if u = u2 then none
                else s.texImage2DPromiseCache u) = some t := ht
            by_cases hu : u = u2
            · rw [if_pos hu] at ht2
              cases ht2
            · rw [if_neg hu] at ht2
              obtain ⟨tk2, htk2, hurl2, hst2⟩ := h2 u t ht2
              by_cases he : t = tid
              · subst he
                rw [htk] at htk2
                injection htk2 with htk3
                rw [← htk3] at hurl2
                exact absurd hurl2 (fun hh => hu hh.symm)
              · refine ⟨tk2, ?_, hurl2, hst2⟩
                show (if t = tid then
                    some { url := u2, status := TaskStatus.settledNull }
                  else s.tasks t) = some tk2
                rw [if_neg he]
                exact htk2
          · intro t hge
            have hge2 : s.nextTaskId ≤ t := hge
            have htid : tid < s.nextTaskId := by
              rcases Nat.lt_or_ge tid s.nextTaskId with hlt | hge3
              · exact hlt
              · rw [h3 tid hge3] at htk
                cases htk
            show (if t = tid then
                some { url := u2, status := TaskStatus.settledNull }
              else s.tasks t) = none
            rw [if_neg (by omega : ¬ (t = tid))]
            exact h3 t hge2
      | settledTex tex =>
        rw [loadContinuation_settled s tid
          { url := u2, status := TaskStatus.settledTex tex } htk
          (fun hh => TaskStatus.noConfusion hh)]
        exact ⟨h1, h2, h3⟩
      | settledNull =>
        rw [loadContinuation_settled s tid
          { url := u2, status := TaskStatus.settledNull } htk
          (fun hh => TaskStatus.noConfusion hh)]
        exact ⟨h1, h2, h3⟩
  | render =>
    show Inv (render s).1
    set su : CState := updateOffscreen { s with renderId := s.renderId + 1 }
      with hsu
    set rla := renderLayersAfterUpdate su with hrla
    have hsu_cache : su.layerImageCache = s.layerImageCache :=
      (updateOffscreen_keeps { s with renderId := s.renderId + 1 }).2.1
    have hnd_su : (su.layerImageCache.map (fun p => p.1)).Nodup := by
      rw [hsu_cache]
      exact h1
    have hnd_rla : (rla.1.layerImageCache.map (fun p => p.1)).Nodup := by
      rw [hrla]
      exact renderLayersAfterUpdate_cache_nodup su hnd_su
    have hpr : rla.1.texImage2DPromiseCache = s.texImage2DPromiseCache := by
      rw [hrla]
      exact (renderLayersAfterUpdate_keeps su).2.1.trans
        (updateOffscreen_keeps { s with renderId := s.renderId + 1 }).2.2.1
    have hta : rla.1.tasks = s.tasks := by
      rw [hrla]
      exact (renderLayersAfterUpdate_keeps su).2.2.1.trans
        (updateOffscreen_keeps { s with renderId := s.renderId + 1 }).2.2.2.1
    have hnt : rla.1.nextTaskId = s.nextTaskId := by
      rw [hrla]
      exact (renderLayersAfterUpdate_nextTask su).trans
        (updateOffscreen_nextTask { s with renderId := s.renderId + 1 })
    have hrr : (render s).1 = (renderAfterCompose rla).1 := rfl
    rw [hrr]
    rcases hatt : rla.1.offscreenWriteColorAttachment with _ | att
    · have hrc : (renderAfterCompose rla).1 = rla.1 := by
        unfold renderAfterCompose
        rw [hatt]
      rw [hrc]
      refine ⟨hnd_rla, ?_, ?_⟩
      · intro u t ht
        rw [hpr] at ht
        obtain ⟨tk, htk, hu, hs2⟩ := h2 u t ht
        refine ⟨tk, ?_, hu, hs2⟩
        rw [hta]
        exact htk
      · intro t hge
        rw [hnt] at hge
        rw [hta]
        exact h3 t hge
    · rcases hauto : rla.1.autoDiscard with _ | _
      · have hrc : (renderAfterCompose rla).1 = rla.1 := by
          unfold renderAfterCompose
          rw [hatt, hauto]
          rfl
        rw [hrc]
        refine ⟨hnd_rla, ?_, ?_⟩
        · intro u t ht
          rw [hpr] at ht
          obtain ⟨tk, htk, hu, hs2⟩ := h2 u t ht
          refine ⟨tk, ?_, hu, hs2⟩
          rw [hta]
          exact htk
        · intro t hge
          rw [hnt] at hge
          rw [hta]
          exact h3 t hge
      · obtain ⟨pc, pd, pp, psh, pdm⟩ := autoDiscardPass_char rla.1 hnd_rla
        obtain ⟨q1, q2, q3, q4, q5, q6, q7, q8, q9, q10, q11, q12, q13, q14,
          q15, q16, q17, q18, q19, q20, q21, q22⟩ :=
          nonCache_eq_fields _ _ (autoDiscardPass_nonCache rla.1)
        have hrc : (renderAfterCompose rla).1 = (autoDiscardPass rla.1).1 := by
          unfold renderAfterCompose
          rw [hatt, hauto]
          rfl
        rw [hrc]
        refine ⟨?_, ?_, ?_⟩
        · exact hnd_rla.sublist
            ((autoDiscardPass_cache_sublist rla.1).map (fun p => p.1))
        · intro u t ht
          rw [pp u] at ht
          by_cases hev : evicted rla.1 u
          · rw [if_pos hev] at ht
            cases ht
          · rw [if_neg hev] at ht
            rw [hpr] at ht
            obtain ⟨tk, htk, hu, hs2⟩ := h2 u t ht
            refine ⟨tk, ?_, hu, hs2⟩
            rw [q1, hta]
            exact htk
        · intro t hge
          rw [q2, hnt] at hge
          rw [q1, hta]
          exact h3 t hge
  | setLayers ls => exact ⟨h1, h2, h3⟩
  | setAutoDiscard b2 => exact ⟨h1, h2, h3⟩

/-- Unfolding of a one-step trace extension. -/
theorem runEvFrom_cons (s : CState) (op : Op) (ops : List Op) :
    runEvFrom s (op :: ops) =
      ((runEvFrom (stepOp s op).1 ops).1,
        (stepOp s op).2 ++ (runEvFrom (stepOp s op).1 ops).2) := rfl

/-- Along every trace from an invariant state, the invariant holds and
residency of every url is the resident automaton read over the collected
events. -/
theorem runEvFrom_resident_inv :
    ∀ (ops : List Op) (s : CState), Inv s →
      Inv (runEvFrom s ops).1 ∧
      ∀ url, (alookup (runEvFrom s ops).1.layerImageCache url).isSome =
        (runEvFrom s ops).2.foldl (residentFoldStep url)
          ((alookup s.layerImageCache url).isSome)
  | [], _, h => ⟨h, fun _ => rfl⟩
  | op :: ops, s, h => by
    obtain ⟨hinv, hres⟩ :=
      runEvFrom_resident_inv ops (stepOp s op).1 (stepOp_inv s op h)
    rw [runEvFrom_cons]
    refine ⟨hinv, fun url => ?_⟩
    rw [List.foldl_append, ← stepOp_resident s op h.1 url]
    exact hres url

/-- The initial state satisfies the cache-map invariant. -/
theorem inv_initial : Inv initialState :=
  ⟨List.nodup_nil, fun _ _ ht => Option.noConfusion ht, fun _ _ => rfl⟩

/-- C1 (amended): along every operation trace from the initial state, an
identifier is resident in layerImageCache exactly when its last load
completion found it in the Desired Set and no discard of it followed (the
resident automaton over the event history); and the Pending-Load Map never
retains an entry whose task settled as Cancelled — every entry points to a
live task for that url that is fetching or settled with a texture.
(Entries whose task settled successfully ARE retained until discarded,
which is where the original claim fails.) -/
theorem c1_cache_invariant_amended (ops : List Op) :
    (∀ url, (alookup (run ops).1.layerImageCache url).isSome =
      residentAfter url (run ops).2) ∧
    (∀ url t, (run ops).1.texImage2DPromiseCache url = some t →
      ∃ tk, (run ops).1.tasks t = some tk ∧ tk.url = url ∧
        tk.status ≠ TaskStatus.settledNull) := by
  obtain ⟨hinv, hres⟩ := runEvFrom_resident_inv ops initialState inv_initial
  exact ⟨fun url => hres url, hinv.2.1⟩

/-- Witness for c1_cache_invariant_amended at a concrete one-load trace. -/
theorem c1_cache_invariant_amended_witness :
    (∀ url, (alookup (run [Op.load "a" (some 5)]).1.layerImageCache
        url).isSome =
      residentAfter url (run [Op.load "a" (some 5)]).2) ∧
    (∀ url t, (run [Op.load "a" (some 5)]).1.texImage2DPromiseCache url =
        some t →
      ∃ tk, (run [Op.load "a" (some 5)]).1.tasks t = some tk ∧
        tk.url = url ∧ tk.status ≠ TaskStatus.settledNull) :=
  c1_cache_invariant_amended [Op.load "a" (some 5)]

/-- C1 counterexample: the Pending-Load Map DOES retain an entry whose
task has already settled.  Loading a pre-decoded image settles its task
synchronously with a texture, yet the promise-cache entry for the url is
still present afterwards (the success path of loadTexImage2D never deletes
it; only discardTexImage2D and the cancellation path do). -/
theorem c1_pending_retained_counterexample :
    (run [Op.load "a" (some 5)]).1.texImage2DPromiseCache "a" = some 0 ∧
    (run [Op.load "a" (some 5)]).1.tasks 0 =
      some { url := "a", status := TaskStatus.settledTex 0 } := by
  refine ⟨by decide, by decide⟩

/-- render() leaves a non-resident url alone: it stays non-resident, its
desired status and pending entry are untouched, and the task registry and
allocator are untouched. -/
theorem render_nonresident (s : CState)
    (hnd : (s.layerImageCache.map (fun p => p.1)).Nodup) (url : Url)
    (hc : alookup s.layerImageCache url = none) :
    ((url ∈ (render s).1.desiredImages ↔ url ∈ s.desiredImages) ∧
     (render s).1.texImage2DPromiseCache url =
       s.texImage2DPromiseCache url ∧
     alookup (render s).1.layerImageCache url = none) ∧
    (render s).1.tasks = s.tasks ∧
    (render s).1.nextTaskId = s.nextTaskId := by
  set su : CState := updateOffscreen { s with renderId := s.renderId + 1 }
    with hsu
  set rla := renderLayersAfterUpdate su with hrla
  have hsu_cache : su.layerImageCache = s.layerImageCache :=
    (updateOffscreen_keeps { s with renderId := s.renderId + 1 }).2.1
  have hnd_su : (su.layerImageCache.map (fun p => p.1)).Nodup := by
    rw [hsu_cache]
    exact hnd
  have hnd_rla : (rla.1.layerImageCache.map (fun p => p.1)).Nodup := by
    rw [hrla]
    exact renderLayersAfterUpdate_cache_nodup su hnd_su
  have hde : rla.1.desiredImages = s.desiredImages := by
    rw [hrla]
    exact (renderLayersAfterUpdate_keeps su).1.trans
      (updateOffscreen_keeps { s with renderId := s.renderId + 1 }).1
  have hpr : rla.1.texImage2DPromiseCache = s.texImage2DPromiseCache := by
    rw [hrla]
    exact (renderLayersAfterUpdate_keeps su).2.1.trans
      (updateOffscreen_keeps { s with renderId := s.renderId + 1 }).2.2.1
  have hta : rla.1.tasks = s.tasks := by
    rw [hrla]
    exact (renderLayersAfterUpdate_keeps su).2.2.1.trans
      (updateOffscreen_keeps { s with renderId := s.renderId + 1 }).2.2.2.1
  have hnt : rla.1.nextTaskId = s.nextTaskId := by
    rw [hrla]
    exact (renderLayersAfterUpdate_nextTask su).trans
      (updateOffscreen_nextTask { s with renderId := s.renderId + 1 })
  have hcr : alookup rla.1.layerImageCache url = none := by
    have h1 : (alookup rla.1.layerImageCache url).isSome =
        (alookup s.layerImageCache url).isSome := by
      rw [hrla, renderLayersAfterUpdate_cache_isSome su url, hsu_cache]
    rw [hc] at h1
    exact Option.not_isSome_iff_eq_none.mp (by rw [h1]; exact fun hh => Bool.noConfusion hh)
  have hrr : (render s).1 = (renderAfterCompose rla).1 := rfl
  rw [hrr]
  rcases hatt : rla.1.offscreenWriteColorAttachment with _ | att
  · have hrc : (renderAfterCompose rla).1 = rla.1 := by
      unfold renderAfterCompose
      rw [hatt]
    rw [hrc]
    exact ⟨⟨by rw [hde], by rw [hpr], hcr⟩, hta, hnt⟩
  · rcases hauto : rla.1.autoDiscard with _ | _
    · have hrc : (renderAfterCompose rla).1 = rla.1 := by
        unfold renderAfterCompose
        rw [hatt, hauto]
        rfl
      rw [hrc]
      exact ⟨⟨by rw [hde], by rw [hpr], hcr⟩, hta, hnt⟩
    · obtain ⟨pc, pd, pp, psh, pdm⟩ := autoDiscardPass_char rla.1 hnd_rla
      obtain ⟨q1, q2, q3, q4, q5, q6, q7, q8, q9, q10, q11, q12, q13, q14,
        q15, q16, q17, q18, q19, q20, q21, q22⟩ :=
        nonCache_eq_fields _ _ (autoDiscardPass_nonCache rla.1)
      have hnev : ¬ evicted rla.1 url := by
        intro hev
        obtain ⟨_, li, hli, _⟩ := (evictedIn_lookup _ _ _ hnd_rla).mp hev
        rw [hcr] at hli
        cases hli
      have hrc : (renderAfterCompose rla).1 = (autoDiscardPass rla.1).1 := by
        unfold renderAfterCompose
        rw [hatt, hauto]
        rfl
      rw [hrc]
      refine ⟨⟨?_, ?_, ?_⟩, q1.trans hta, q2.trans hnt⟩
      · rw [pd url, hde]
        exact ⟨fun hh => hh.1, fun hh => ⟨hh, hnev⟩⟩
      · rw [pp url, if_neg hnev, hpr]
      · rw [pc url, if_neg hnev, hcr]

/-- Operations avoiding the url and its task preserve the in-flight fetch
context. -/
theorem stepOp_urlLive (s : CState) (url : Url) (t : Nat) (op : Op)
    (hInv : Inv s) (hctx : UrlLive s url t) (hav : OpAvoids url t op) :
    UrlLive (stepOp s op).1 url t := by
  obtain ⟨c1, c2, c3, c4, c5, c6⟩ := hctx
  cases op with
  | load u2 img =>
    have hu2 : ¬ u2 = url := hav
    have hur : ¬ url = u2 := fun hh => hu2 hh.symm
    show UrlLive (loadTexImage2D s u2 img).1 url t
    rcases hp : s.texImage2DPromiseCache u2 with _ | t0
    · cases img with
      | none =>
        rw [loadTexImage2D_fresh_fetch s u2 hp]
        refine ⟨(mem_insertUrl url u2 s.desiredImages).mpr (Or.inr c1),
          ?_, ?_, c4, ?_, ?_⟩
        · show (if url = u2 then some s.nextTaskId
            else s.texImage2DPromiseCache url) = some t
          rw [if_neg hur]
          exact c2
        · show (if t = s.nextTaskId then
              some { url := u2, status := TaskStatus.fetching }
            else s.tasks t) =
            some { url := url, status := TaskStatus.fetching }
          rw [if_neg (Nat.ne_of_lt c6)]
          exact c3
        · intro tid tk htk hurl
          have htk2 : (if tid = s.nextTaskId then
              some { url := u2, status := TaskStatus.fetching }
            else s.tasks tid) = some tk := htk
          by_cases he : tid = s.nextTaskId
          · rw [if_pos he] at htk2
            injection htk2 with htk3
            rw [← htk3] at hurl
            exact absurd hurl hu2
          · rw [if_neg he] at htk2
            exact c5 tid tk htk2 hurl
        · show t < s.nextTaskId + 1
          omega
      | some i =>
        rw [loadTexImage2D_fresh_supplied s u2 i hp]
        refine ⟨(mem_insertUrl url u2 s.desiredImages).mpr (Or.inr c1),
          ?_, ?_, ?_, ?_, ?_⟩
        · show (if url = u2 then some s.nextTaskId
            else s.texImage2DPromiseCache url) = some t
          rw [if_neg hur]
          exact c2
        · show (if t = s.nextTaskId then
              some { url := u2, status := TaskStatus.settledTex s.nextTexId }
            else s.tasks t) =
            some { url := url, status := TaskStatus.fetching }
          rw [if_neg (Nat.ne_of_lt c6)]
          exact c3
        · show alookup (aset s.layerImageCache u2
            { url := u2, texImage2D := s.nextTexId
              image := some (ImgHandle.supplied i), renderId := -1 })
            url = none
          rw [alookup_aset, if_neg hur]
          exact c4
        · intro tid tk htk hurl
          have htk2 : (if tid = s.nextTaskId then
              some { url := u2, status := TaskStatus.settledTex s.nextTexId }
            else s.tasks tid) = some tk := htk
          by_cases he : tid = s.nextTaskId
          · rw [if_pos he] at htk2
            injection htk2 with htk3
            rw [← htk3] at hurl
            exact absurd hurl hu2
          · rw [if_neg he] at htk2
            exact c5 tid tk htk2 hurl
        · show t < s.nextTaskId + 1
          omega
    · rw [loadTexImage2D_pending s u2 img t0 hp]
      exact ⟨(mem_insertUrl url u2 s.desiredImages).mpr (Or.inr c1),
        c2, c3, c4, c5, c6⟩
  | discard u2 =>
    have hu2 : ¬ u2 = url := hav
    have hur : ¬ url = u2 := fun hh => hu2 hh.symm
    show UrlLive (discardTexImage2D s u2).1 url t
    by_cases hd : u2 ∈ s.desiredImages
    · rw [discardTexImage2D_desired s u2 hd]
      refine ⟨(mem_removeUrl url u2 s.desiredImages).mpr ⟨c1, hur⟩,
        ?_, c3, ?_, c5, c6⟩
      · show (if url = u2 then none
          else s.texImage2DPromiseCache url) = some t
        rw [if_neg hur]
        exact c2
      · show alookup (aerase s.layerImageCache u2) url = none
        rw [alookup_aerase, if_neg hur]
        exact c4
    · rw [discardTexImage2D_not_desired s u2 hd]
      exact ⟨c1, c2, c3, c4, c5, c6⟩
  | complete tid =>
    have htne : ¬ tid = t := hav
    show UrlLive (loadContinuation s tid).1 url t
    rcases htk : s.tasks tid with _ | tk
    · rw [loadContinuation_none s tid htk]
      exact ⟨c1, c2, c3, c4, c5, c6⟩
    · obtain ⟨u2, st⟩ := tk
      cases st with
      | fetching =>
        have hu2 : ¬ u2 = url := fun hh =>
          htne (c5 tid { url := u2, status := TaskStatus.fetching } htk hh)
        have hur : ¬ url = u2 := fun hh => hu2 hh.symm
        by_cases hd : u2 ∈ s.desiredImages
        · rw [loadContinuation_success s tid u2 htk hd]
          refine ⟨c1, c2, ?_, ?_, ?_, c6⟩
          · show (if t = tid then
                some { url := u2, status := TaskStatus.settledTex s.nextTexId }
              else s.tasks t) =
              some { url := url, status := TaskStatus.fetching }
            rw [if_neg (fun hh => htne hh.symm)]
            exact c3
          · show alookup (aset s.layerImageCache u2
              { url := u2, texImage2D := s.nextTexId
                image := some (ImgHandle.fetched tid), renderId := -1 })
              url = none
            rw [alookup_aset, if_neg hur]
            exact c4
          · intro tid2 tk2 htk2 hurl2
            have htk3 : (if tid2 = tid then
                some { url := u2, status := TaskStatus.settledTex s.nextTexId }
              else s.tasks tid2) = some tk2 := htk2
            by_cases he : tid2 = tid
            · rw [if_pos he] at htk3
              injection htk3 with htk4
              rw [← htk4] at hurl2
              exact absurd hurl2 hu2
            · rw [if_neg he] at htk3
              exact c5 tid2 tk2 htk3 hurl2
        · rw [loadContinuation_cancel s tid u2 htk hd]
          refine ⟨c1, ?_, ?_, c4, ?_, c6⟩
          · show (if url = u2 then none
              else s.texImage2DPromiseCache url) = some t
            rw [if_neg hur]
            exact c2
          · show (if t = tid then
                some { url := u2, status := TaskStatus.settledNull }
              else s.tasks t) =
              some { url := url, status := TaskStatus.fetching }
            rw [if_neg (fun hh => htne hh.symm)]
            exact c3
          · intro tid2 tk2 htk2 hurl2
            have htk3 : (if tid2 = tid then
                some { url := u2, status := TaskStatus.settledNull }
              else s.tasks tid2) = some tk2 := htk2
            by_cases he : tid2 = tid
            · rw [if_pos he] at htk3
              injection htk3 with htk4
              rw [← htk4] at hurl2
              exact absurd hurl2 hu2
            · rw [if_neg he] at htk3
              exact c5 tid2 tk2 htk3 hurl2
      | settledTex tex =>
        rw [loadContinuation_settled s tid
          { url := u2, status := TaskStatus.settledTex tex } htk
          (fun hh => TaskStatus.noConfusion hh)]
        exact ⟨c1, c2, c3, c4, c5, c6⟩
      | settledNull =>
        rw [loadContinuation_settled s tid
          { url := u2, status := TaskStatus.settledNull } htk
          (fun hh => TaskStatus.noConfusion hh)]
        exact ⟨c1, c2, c3, c4, c5, c6⟩
  | render =>
    show UrlLive (render s).1 url t
    obtain ⟨⟨hd, hp, hc2⟩, hta, hnt⟩ := render_nonresident s hInv.1 url c4
    refine ⟨hd.mpr c1, hp.trans c2, ?_, hc2, ?_, ?_⟩
    · rw [hta]
      exact c3
    · intro tid tk htk hurl
      rw [hta] at htk
      exact c5 tid tk htk hurl
    · rw [hnt]
      exact c6
  | setLayers ls => exact ⟨c1, c2, c3, c4, c5, c6⟩
  | setAutoDiscard b2 => exact ⟨c1, c2, c3, c4, c5, c6⟩

/-- Operations avoiding the url and its task preserve the discarded-fetch
context. -/
theorem stepOp_urlDropped (s : CState) (url : Url) (t : Nat) (op : Op)
    (hInv : Inv s) (hctx : UrlDropped s url t) (hav : OpAvoids url t op) :
    UrlDropped (stepOp s op).1 url t := by
  obtain ⟨c1, c2, c3, c4, c5, c6⟩ := hctx
  cases op with
  | load u2 img =>
    have hu2 : ¬ u2 = url := hav
    have hur : ¬ url = u2 := fun hh => hu2 hh.symm
    have hnd : url ∉ insertUrl u2 s.desiredImages := by
      intro hm
      rcases (mem_insertUrl url u2 s.desiredImages).mp hm with hh | hh
      · exact hur hh
      · exact c1 hh
    show UrlDropped (loadTexImage2D s u2 img).1 url t
    rcases hp : s.texImage2DPromiseCache u2 with _ | t0
    · cases img with
      | none =>
        rw [loadTexImage2D_fresh_fetch s u2 hp]
        refine ⟨hnd, ?_, ?_, c4, ?_, ?_⟩
        · show (if url = u2 then some s.nextTaskId
            else s.texImage2DPromiseCache url) = none
          rw [if_neg hur]
          exact c2
        · show (if t = s.nextTaskId then
              some { url := u2, status := TaskStatus.fetching }
            else s.tasks t) =
            some { url := url, status := TaskStatus.fetching }
          rw [if_neg (Nat.ne_of_lt c6)]
          exact c3
        · intro tid tk htk hurl
          have htk2 : (if tid = s.nextTaskId then
              some { url := u2, status := TaskStatus.fetching }
            else s.tasks tid) = some tk := htk
          by_cases he : tid = s.nextTaskId
          · rw [if_pos he] at htk2
            injection htk2 with htk3
            rw [← htk3] at hurl
            exact absurd hurl hu2
          · rw [if_neg he] at htk2
            exact c5 tid tk htk2 hurl
        · show t < s.nextTaskId + 1
          omega
      | some i =>
        rw [loadTexImage2D_fresh_supplied s u2 i hp]
        refine ⟨hnd, ?_, ?_, ?_, ?_, ?_⟩
        · show (if url = u2 then some s.nextTaskId
            else s.texImage2DPromiseCache url) = none
          rw [if_neg hur]
          exact c2
        · show (if t = s.nextTaskId then
              some { url := u2, status := TaskStatus.settledTex s.nextTexId }
            else s.tasks t) =
            some { url := url, status := TaskStatus.fetching }
          rw [if_neg (Nat.ne_of_lt c6)]
          exact c3
        · show alookup (aset s.layerImageCache u2
            { url := u2, texImage2D := s.nextTexId
              image := some (ImgHandle.supplied i), renderId := -1 })
            url = none
          rw [alookup_aset, if_neg hur]
          exact c4
        · intro tid tk htk hurl
          have htk2 : (if tid = s.nextTaskId then
              some { url := u2, status := TaskStatus.settledTex s.nextTexId }
            else s.tasks tid) = some tk := htk
          by_cases he : tid = s.nextTaskId
          · rw [if_pos he] at htk2
            injection htk2 with htk3
            rw [← htk3] at hurl
            exact absurd hurl hu2
          · rw [if_neg he] at htk2
            exact c5 tid tk htk2 hurl
        · show t < s.nextTaskId + 1
          omega
    · rw [loadTexImage2D_pending s u2 img t0 hp]
      exact ⟨hnd, c2, c3, c4, c5, c6⟩
  | discard u2 =>
    have hu2 : ¬ u2 = url := hav
    have hur : ¬ url = u2 := fun hh => hu2 hh.symm
    show UrlDropped (discardTexImage2D s u2).1 url t
    by_cases hd : u2 ∈ s.desiredImages
    · rw [discardTexImage2D_desired s u2 hd]
      refine ⟨?_, ?_, c3, ?_, c5, c6⟩
      · intro hm
        exact c1 ((mem_removeUrl url u2 s.desiredImages).mp hm).1
      · show (if url = u2 then none
          else s.texImage2DPromiseCache url) = none
        rw [if_neg hur]
        exact c2
      · show alookup (aerase s.layerImageCache u2) url = none
        rw [alookup_aerase, if_neg hur]
        exact c4
    · rw [discardTexImage2D_not_desired s u2 hd]
      exact ⟨c1, c2, c3, c4, c5, c6⟩
  | complete tid =>
    have htne : ¬ tid = t := hav
    show UrlDropped (loadContinuation s tid).1 url t
    rcases htk : s.tasks tid with _ | tk
    · rw [loadContinuation_none s tid htk]
      exact ⟨c1, c2, c3, c4, c5, c6⟩
    · obtain ⟨u2, st⟩ := tk
      cases st with
      | fetching =>
        have hu2 : ¬ u2 = url := fun hh =>
          htne (c5 tid { url := u2, status := TaskStatus.fetching } htk hh)
        have hur : ¬ url = u2 := fun hh => hu2 hh.symm
        by_cases hd : u2 ∈ s.desiredImages
        · rw [loadContinuation_success s tid u2 htk hd]
          refine ⟨c1, c2, ?_, ?_, ?_, c6⟩
          · show (if t = tid then
                some { url := u2, status := TaskStatus.settledTex s.nextTexId }
              else s.tasks t) =
              some { url := url, status := TaskStatus.fetching }
            rw [if_neg (fun hh => htne hh.symm)]
            exact c3
          · show alookup (aset s.layerImageCache u2
              { url := u2, texImage2D := s.nextTexId
                image := some (ImgHandle.fetched tid), renderId := -1 })
              url = none
            rw [alookup_aset, if_neg hur]
            exact c4
          · intro tid2 tk2 htk2 hurl2
            have htk3 : (if tid2 = tid then
                some { url := u2, status := TaskStatus.settledTex s.nextTexId }
              else s.tasks tid2) = some tk2 := htk2
            by_cases he : tid2 = tid
            · rw [if_pos he] at htk3
              injection htk3 with htk4
              rw [← htk4] at hurl2
              exact absurd hurl2 hu2
            · rw [if_neg he] at htk3
              exact c5 tid2 tk2 htk3 hurl2
        · rw [loadContinuation_cancel s tid u2 htk hd]
          refine ⟨c1, ?_, ?_, c4, ?_, c6⟩
          · show (if url = u2 then none
              else s.texImage2DPromiseCache url) = none
            rw [if_neg hur]
            exact c2
          · show (if t = tid then
                some { url := u2, status := TaskStatus.settledNull }
              else s.tasks t) =
              some { url := url, status := TaskStatus.fetching }
            rw [if_neg (fun hh => htne hh.symm)]
            exact c3
          · intro tid2 tk2 htk2 hurl2
            have htk3 : (if tid2 = tid then
                some { url := u2, status := TaskStatus.settledNull }
              else s.tasks tid2) = some tk2 := htk2
            by_cases he : tid2 = tid
            · rw [if_pos he] at htk3
              injection htk3 with htk4
              rw [← htk4] at hurl2
              exact absurd hurl2 hu2
            · rw [if_neg he] at htk3
              exact c5 tid2 tk2 htk3 hurl2
      | settledTex tex =>
        rw [loadContinuation_settled s tid
          { url := u2, status := TaskStatus.settledTex tex } htk
          (fun hh => TaskStatus.noConfusion hh)]
        exact ⟨c1, c2, c3, c4, c5, c6⟩
      | settledNull =>
        rw [loadContinuation_settled s tid
          { url := u2, status := TaskStatus.settledNull } htk
          (fun hh => TaskStatus.noConfusion hh)]
        exact ⟨c1, c2, c3, c4, c5, c6⟩
  | render =>
    show UrlDropped (render s).1 url t
    obtain ⟨⟨hd, hp, hc2⟩, hta, hnt⟩ := render_nonresident s hInv.1 url c4
    refine ⟨fun hm => c1 (hd.mp hm), hp.trans c2, ?_, hc2, ?_, ?_⟩
    · rw [hta]
      exact c3
    · intro tid tk htk hurl
      rw [hta] at htk
      exact c5 tid tk htk hurl
    · rw [hnt]
      exact c6
  | setLayers ls => exact ⟨c1, c2, c3, c4, c5, c6⟩
  | setAutoDiscard b2 => exact ⟨c1, c2, c3, c4, c5, c6⟩

/-- The in-flight fetch context survives any avoiding trace. -/
theorem runS_urlLive (url : Url) (t : Nat) :
    ∀ (ops : List Op) (s : CState), Inv s → UrlLive s url t →
      (∀ op ∈ ops, OpAvoids url t op) →
      Inv (runS s ops) ∧ UrlLive (runS s ops) url t
  | [], _, hInv, hctx, _ => ⟨hInv, hctx⟩
  | op :: ops, s, hInv, hctx, hav =>
    runS_urlLive url t ops (stepOp s op).1 (stepOp_inv s op hInv)
      (stepOp_urlLive s url t op hInv hctx
        (hav op (List.mem_cons_self op ops)))
      (fun op2 hop2 => hav op2 (List.mem_cons.mpr (Or.inr hop2)))

/-- The discarded-fetch context survives any avoiding trace. -/
theorem runS_urlDropped (url : Url) (t : Nat) :
    ∀ (ops : List Op) (s : CState), Inv s → UrlDropped s url t →
      (∀ op ∈ ops, OpAvoids url t op) →
      Inv (runS s ops) ∧ UrlDropped (runS s ops) url t
  | [], _, hInv, hctx, _ => ⟨hInv, hctx⟩
  | op :: ops, s, hInv, hctx, hav =>
    runS_urlDropped url t ops (stepOp s op).1 (stepOp_inv s op hInv)
      (stepOp_urlDropped s url t op hInv hctx
        (hav op (List.mem_cons_self op ops)))
      (fun op2 hop2 => hav op2 (List.mem_cons.mpr (Or.inr hop2)))

/-- C3: cancellation race.  From any invariant state where the url is not
yet pending, not resident, and has no task, a load starts a fetch; if the
url is discarded before that fetch settles (with arbitrary interleaved
operations that avoid the url and its task), the eventual settlement takes
the Cancelled path: it releases the fetched image and settles null without
populating the Resident Cache, and afterwards the url is absent from the
Desired Set, the Resident Cache and the Pending-Load Map.  Also
discardTexImage2D returns false and changes nothing when the url is not
desired, and returns true otherwise. -/
theorem c3_cancellation_race (s0 : CState) (url : Url)
    (mid mid2 : List Op)
    (hInv : Inv s0)
    (hp0 : s0.texImage2DPromiseCache url = none)
    (hc0 : alookup s0.layerImageCache url = none)
    (ht0 : ∀ tid tk, s0.tasks tid = some tk → ¬ tk.url = url)
    (hmid : ∀ op ∈ mid, OpAvoids url s0.nextTaskId op)
    (hmid2 : ∀ op ∈ mid2, OpAvoids url s0.nextTaskId op) :
    (discardTexImage2D (runS (loadTexImage2D s0 url none).1 mid)
      url).2.1 = true ∧
    (loadContinuation (runS (discardTexImage2D
        (runS (loadTexImage2D s0 url none).1 mid) url).1 mid2)
      s0.nextTaskId).2 =
      [Ev.released (ImgHandle.fetched s0.nextTaskId),
       Ev.loadCompleted url s0.nextTaskId false] ∧
    (loadContinuation (runS (discardTexImage2D
        (runS (loadTexImage2D s0 url none).1 mid) url).1 mid2)
      s0.nextTaskId).1.tasks s0.nextTaskId =
      some { url := url, status := TaskStatus.settledNull } ∧
    url ∉ (loadContinuation (runS (discardTexImage2D
        (runS (loadTexImage2D s0 url none).1 mid) url).1 mid2)
      s0.nextTaskId).1.desiredImages ∧
    alookup (loadContinuation (runS (discardTexImage2D
        (runS (loadTexImage2D s0 url none).1 mid) url).1 mid2)
      s0.nextTaskId).1.layerImageCache url = none ∧
    (loadContinuation (runS (discardTexImage2D
        (runS (loadTexImage2D s0 url none).1 mid) url).1 mid2)
      s0.nextTaskId).1.texImage2DPromiseCache url = none ∧
    (loadContinuation (runS (discardTexImage2D
        (runS (loadTexImage2D s0 url none).1 mid) url).1 mid2)
      s0.nextTaskId).1.layerImageCache =
      (runS (discardTexImage2D
        (runS (loadTexImage2D s0 url none).1 mid) url).1
        mid2).layerImageCache ∧
    (∀ s u, u ∉ s.desiredImages → discardTexImage2D s u = (s, false, [])) ∧
    (∀ s u, u ∈ s.desiredImages → (discardTexImage2D s u).2.1 = true) := by
  have hInv1 : Inv (loadTexImage2D s0 url none).1 :=
    stepOp_inv s0 (Op.load url none) hInv
  have hlive : UrlLive (loadTexImage2D s0 url none).1 url s0.nextTaskId := by
    rw [loadTexImage2D_fresh_fetch s0 url hp0]
    refine ⟨mem_insertUrl_self url s0.desiredImages, ?_, ?_, hc0, ?_, ?_⟩
    · show (if url = url then some s0.nextTaskId
        else s0.texImage2DPromiseCache url) = some s0.nextTaskId
      rw [if_pos rfl]
    · show (if s0.nextTaskId = s0.nextTaskId then
          some { url := url, status := TaskStatus.fetching }
        else s0.tasks s0.nextTaskId) =
        some { url := url, status := TaskStatus.fetching }
      rw [if_pos rfl]
    · intro tid tk htk hurl
      have htk2 : (if tid = s0.nextTaskId then
          some { url := url, status := TaskStatus.fetching }
        else s0.tasks tid) = some tk := htk
      by_cases he : tid = s0.nextTaskId
      · exact he
      · rw [if_neg he] at htk2
        exact absurd hurl (ht0 tid tk htk2)
    · show s0.nextTaskId < s0.nextTaskId + 1
      omega
  obtain ⟨hInvS1, hliveS1⟩ :=
    runS_urlLive url s0.nextTaskId mid (loadTexImage2D s0 url none).1
      hInv1 hlive hmid
  set S1 : CState := runS (loadTexImage2D s0 url none).1 mid with hS1
  obtain ⟨cl1, cl2, cl3, cl4, cl5, cl6⟩ := hliveS1
  have hdisc := discardTexImage2D_desired S1 url cl1
  have hdropped : UrlDropped (discardTexImage2D S1 url).1 url
      s0.nextTaskId := by
    rw [hdisc]
    refine ⟨?_, ?_, cl3, ?_, cl5, cl6⟩
    · intro hm
      exact ((mem_removeUrl url url S1.desiredImages).mp hm).2 rfl
    · show (if url = url then none
        else S1.texImage2DPromiseCache url) = none
      rw [if_pos rfl]
    · show alookup (aerase S1.layerImageCache url) url = none
      rw [alookup_aerase, if_pos rfl]
  have hInvD : Inv (discardTexImage2D S1 url).1 :=
    stepOp_inv S1 (Op.discard url) hInvS1
  obtain ⟨hInvS2, hdropS2⟩ :=
    runS_urlDropped url s0.nextTaskId mid2 (discardTexImage2D S1 url).1
      hInvD hdropped hmid2
  set S2 : CState := runS (discardTexImage2D S1 url).1 mid2 with hS2
  obtain ⟨d1, d2, d3, d4, d5, d6⟩ := hdropS2
  have hcomp := loadContinuation_cancel S2 s0.nextTaskId url d3 d1
  refine ⟨?_, ?_, ?_, ?_, ?_, ?_, ?_,
    fun s u h => discardTexImage2D_not_desired s u h,
    fun s u h => by rw [discardTexImage2D_desired s u h]⟩
  · rw [hdisc]
  · rw [hcomp]
  · rw [hcomp]
    show (if s0.nextTaskId = s0.nextTaskId then
        some { url := url, status := TaskStatus.settledNull }
      else S2.tasks s0.nextTaskId) =
      some { url := url, status := TaskStatus.settledNull }
    rw [if_pos rfl]
  · rw [hcomp]
    exact d1
  · rw [hcomp]
    exact d4
  · rw [hcomp]
    show (if url = url then none
      else S2.texImage2DPromiseCache url) = none
    rw [if_pos rfl]
  · rw [hcomp]

/-- Witness for c3_cancellation_race: a fresh fetch of url a from the
initial state, discarded immediately, settles as cancelled. -/
theorem c3_cancellation_race_witness :
    (discardTexImage2D (runS (loadTexImage2D initialState "a" none).1 [])
      "a").2.1 = true ∧
    (loadContinuation (runS (discardTexImage2D
        (runS (loadTexImage2D initialState "a" none).1 []) "a").1 [])
      initialState.nextTaskId).2 =
      [Ev.released (ImgHandle.fetched initialState.nextTaskId),
       Ev.loadCompleted "a" initialState.nextTaskId false] ∧
    (loadContinuation (runS (discardTexImage2D
        (runS (loadTexImage2D initialState "a" none).1 []) "a").1 [])
      initialState.nextTaskId).1.tasks initialState.nextTaskId =
      some { url := "a", status := TaskStatus.settledNull } ∧
    "a" ∉ (loadContinuation (runS (discardTexImage2D
        (runS (loadTexImage2D initialState "a" none).1 []) "a").1 [])
      initialState.nextTaskId).1.desiredImages ∧
    alookup (loadContinuation (runS (discardTexImage2D
        (runS (loadTexImage2D initialState "a" none).1 []) "a").1 [])
      initialState.nextTaskId).1.layerImageCache "a" = none ∧
    (loadContinuation (runS (discardTexImage2D
        (runS (loadTexImage2D initialState "a" none).1 []) "a").1 [])
      initialState.nextTaskId).1.texImage2DPromiseCache "a" = none ∧
    (loadContinuation (runS (discardTexImage2D
        (runS (loadTexImage2D initialState "a" none).1 []) "a").1 [])
      initialState.nextTaskId).1.layerImageCache =
      (runS (discardTexImage2D
        (runS (loadTexImage2D initialState "a" none).1 []) "a").1
        []).layerImageCache ∧
    (∀ s u, u ∉ s.desiredImages → discardTexImage2D s u = (s, false, [])) ∧
    (∀ s u, u ∈ s.desiredImages → (discardTexImage2D s u).2.1 = true) :=
  c3_cancellation_race initialState "a" [] [] inv_initial rfl rfl
    (fun _ _ htk => Option.noConfusion htk)
    (fun op hop => absurd hop (List.not_mem_nil op))
    (fun op hop => absurd hop (List.not_mem_nil op))

end LayerCompositor
